import Mathlib

/-!
Verification of the coordinate-mapping core of the pyvariant repository
(`variant_map/core.py`) against its natural-language specification.

The annotation dataframe is embedded as a list of rows, the five position
dataclasses as structures, and the `_<a>_to_<b>` conversion methods of the
`Core` class as executable functions over those structures.  Python integers
are embedded as `Int`; Python `floor` on exact ratios is `Int.fdiv`; Python
`%` with a positive divisor is `Int.emod`.  Functions of `utils.py` and the
codon table of `tables.py` are not part of the sources at hand and are
modelled from the specification, as marked in their doc comments.
-/

namespace VariantMap

/-- Error taxonomy of the spec: `assert not offset` / offset `ValueError`s are
`OffsetError`, ref-mismatch `ValueError`s are `RefMismatchError`,
`split_by_codon`'s divisibility `ValueError` is `LengthError`, the remaining
`assert` statements are `AssertError`, and `raise NotImplementedError` is
`NotImplementedError`. -/
inductive Err where
  | OffsetError
  | RefMismatchError
  | LengthError
  | AssertError
  | NotImplementedError
  deriving DecidableEq, Repr

/-- Decidable equality of `Except` results, for evaluating the fallible
functions below at concrete inputs. -/
instance exceptDecEq {ε α : Type} [DecidableEq ε] [DecidableEq α] :
    DecidableEq (Except ε α) := fun a b =>
  match a, b with
  | .error e, .error f =>
    if h : e = f then isTrue (h ▸ rfl) else isFalse (by simp [h])
  | .error _, .ok _ => isFalse (by simp)
  | .ok _, .error _ => isFalse (by simp)
  | .ok x, .ok y =>
    if h : x = y then isTrue (h ▸ rfl) else isFalse (by simp [h])

/-- One row of the annotation dataframe `Core.df` (spec §3 "Annotation row").
`end_` embeds the `end` column (a Lean keyword). -/
structure Row where
  contig_id : String
  start : Int
  end_ : Int
  strand : String
  cdna_start : Int
  cdna_end : Int
  transcript_start : Int
  transcript_end : Int
  exon_number : Int
  exon_id : String
  gene_id : String
  gene_name : String
  transcript_id : String
  transcript_name : String
  protein_id : String
  feature : String
  deriving DecidableEq, Repr

/-- `CdnaPosition` dataclass (fields of `Position` plus the cDNA identity
fields; the `_data` back-reference is the shared store and is omitted). -/
structure CdnaPos where
  contig_id : String
  start : Int
  start_offset : Int
  end_ : Int
  end_offset : Int
  strand : String
  gene_id : String
  gene_name : String
  transcript_id : String
  transcript_name : String
  protein_id : String
  deriving DecidableEq, Repr

/-- `DnaPosition` dataclass. -/
structure DnaPos where
  contig_id : String
  start : Int
  start_offset : Int
  end_ : Int
  end_offset : Int
  strand : String
  deriving DecidableEq, Repr

/-- `ExonPosition` dataclass. -/
structure ExonPos where
  contig_id : String
  start : Int
  start_offset : Int
  end_ : Int
  end_offset : Int
  strand : String
  gene_id : String
  gene_name : String
  transcript_id : String
  transcript_name : String
  exon_id : String
  deriving DecidableEq, Repr

/-- `ProteinPosition` dataclass. -/
structure ProteinPos where
  contig_id : String
  start : Int
  start_offset : Int
  end_ : Int
  end_offset : Int
  strand : String
  gene_id : String
  gene_name : String
  transcript_id : String
  transcript_name : String
  protein_id : String
  deriving DecidableEq, Repr

/-- `RnaPosition` dataclass. -/
structure RnaPos where
  contig_id : String
  start : Int
  start_offset : Int
  end_ : Int
  end_offset : Int
  strand : String
  gene_id : String
  gene_name : String
  transcript_id : String
  transcript_name : String
  deriving DecidableEq, Repr

/-- `CdnaPosition.__str__`: offsets, strand and identity fields other than the
transcript are not rendered. -/
def cdnaStr (p : CdnaPos) : String :=
  if p.start = p.end_ then s!"{p.transcript_id}:c.{p.start}"
  else s!"{p.transcript_id}:c.{p.start}_{p.end_}"

/-- `DnaPosition.__str__`. -/
def dnaStr (p : DnaPos) : String :=
  if p.start = p.end_ then s!"{p.contig_id}:g.{p.start}"
  else s!"{p.contig_id}:g.{p.start}_{p.end_}"

/-- `ExonPosition.__str__`. -/
def exonStr (p : ExonPos) : String :=
  if p.start = p.end_ then s!"{p.transcript_id}:e.{p.start}"
  else s!"{p.transcript_id}:e.{p.start}_{p.end_}"

/-- `ProteinPosition.__str__`. -/
def proteinStr (p : ProteinPos) : String :=
  if p.start = p.end_ then s!"{p.protein_id}:p.{p.start}"
  else s!"{p.protein_id}:p.{p.start}_{p.end_}"

/-- `RnaPosition.__str__`. -/
def rnaStr (p : RnaPos) : String :=
  if p.start = p.end_ then s!"{p.transcript_id}:r.{p.start}"
  else s!"{p.transcript_id}:r.{p.start}_{p.end_}"

/-! Python's `sorted` applied to position lists compares via `Position.__lt__`,
which compares canonical strings; Python compares strings lexicographically by
code point.  We embed it as an insertion sort keyed by the canonical-string
function, with an executable code-point comparison. -/

/-- Lexicographic code-point comparison (Python string `<=`) on character
lists. -/
def charListLeB : List Char → List Char → Bool
  | [], _ => true
  | _ :: _, [] => false
  | a :: as, b :: bs =>
    if a.toNat < b.toNat then true
    else if b.toNat < a.toNat then false
    else charListLeB as bs

/-- Python string `<=`: lexicographic by code point. -/
def strLeB (a b : String) : Bool :=
  charListLeB a.data b.data

/-- Insert an element into a list sorted by the string key `s`. -/
def insertByStr {α : Type} (s : α → String) (a : α) : List α → List α
  | [] => [a]
  | b :: l => if strLeB (s a) (s b) then a :: b :: l else b :: insertByStr s a l

/-- `sorted` over position lists: sort by the canonical-string key `s`. -/
def pySort {α : Type} (s : α → String) (l : List α) : List α :=
  l.foldr (insertByStr s) []

/-- `itertools.product` over two lists, in Python's iteration order. -/
def listProd {α β : Type} (xs : List α) (ys : List β) : List (α × β) :=
  xs.flatMap fun x => ys.map fun y => (x, y)

/-! The `merge_positions` function of `core.py`: take the product of the two
candidate lists, swap a pair when the start candidate's `start` exceeds the end
candidate's `start`, keep pairs agreeing on the grouping key, rebuild one
position per kept pair (all fields of the start candidate, `end`/`end_offset`
of the end candidate), deduplicate through a `set` (structural equality) and
sort by canonical string.  It is generic over the concrete position class; the
class-specific rebuild is the `mk` argument. -/

/-- `merge_positions`, generic over the position type. -/
def mergePositions {P : Type} [DecidableEq P] (strOf key : P → String)
    (getStart : P → Int) (mk : P → P → P) (starts ends : List P) : List P :=
  pySort strOf <| List.dedup <|
    starts.flatMap fun a => ends.flatMap fun b =>
      let q := if getStart a > getStart b then (b, a) else (a, b)
      if key q.1 = key q.2 then [mk q.1 q.2] else []

/-- The position built by `merge_positions` from one (start, end) candidate
pair, swap included. -/
def mergedPair {P : Type} (getStart : P → Int) (mk : P → P → P) (a b : P) : P :=
  if getStart a > getStart b then mk b a else mk a b

/-- The per-pair rebuild of `merge_positions` at cDNA positions: all fields of
the start candidate with `end`/`end_offset` of the end candidate. -/
def cdnaSpanFrom (sp ep : CdnaPos) : CdnaPos :=
  { sp with end_ := ep.end_, end_offset := ep.end_offset }

/-- The per-pair rebuild of `merge_positions` at DNA positions. -/
def dnaSpanFrom (sp ep : DnaPos) : DnaPos :=
  { sp with end_ := ep.end_, end_offset := ep.end_offset }

/-- The per-pair rebuild of `merge_positions` at exon positions. -/
def exonSpanFrom (sp ep : ExonPos) : ExonPos :=
  { sp with end_ := ep.end_, end_offset := ep.end_offset }

/-- The per-pair rebuild of `merge_positions` at RNA positions. -/
def rnaSpanFrom (sp ep : RnaPos) : RnaPos :=
  { sp with end_ := ep.end_, end_offset := ep.end_offset }

/-- `merge_positions` instantiated at cDNA positions with key `transcript_id`. -/
def mergeCdna : List CdnaPos → List CdnaPos → List CdnaPos :=
  mergePositions cdnaStr (fun p => p.transcript_id) (fun p => p.start) cdnaSpanFrom

/-- `merge_positions` instantiated at DNA positions with key `contig_id`. -/
def mergeDna : List DnaPos → List DnaPos → List DnaPos :=
  mergePositions dnaStr (fun p => p.contig_id) (fun p => p.start) dnaSpanFrom

/-- `merge_positions` instantiated at exon positions with key `transcript_id`. -/
def mergeExon : List ExonPos → List ExonPos → List ExonPos :=
  mergePositions exonStr (fun p => p.transcript_id) (fun p => p.start) exonSpanFrom

/-- `merge_positions` instantiated at RNA positions with key `transcript_id`. -/
def mergeRna : List RnaPos → List RnaPos → List RnaPos :=
  mergePositions rnaStr (fun p => p.transcript_id) (fun p => p.start) rnaSpanFrom

/-! Sequence utilities.  `utils.py` is not among the sources at hand (only its
callers in `core.py` and its tests are), so these are modelled from the
specification, checked against the concrete examples of the spec and of
`test_utils.py`. -/

/-- Modelled from the spec: expansion of one IUPAC nucleotide ambiguity code to
its concrete bases, in alphabetical order (`R -> {A,G}`, `N -> {A,C,G,T}`);
a character that is no ambiguity code expands to itself. -/
def expandNtChar (c : Char) : List String :=
  if c = 'R' then ["A", "G"]
  else if c = 'Y' then ["C", "T"]
  else if c = 'S' then ["C", "G"]
  else if c = 'W' then ["A", "T"]
  else if c = 'K' then ["G", "T"]
  else if c = 'M' then ["A", "C"]
  else if c = 'B' then ["C", "G", "T"]
  else if c = 'D' then ["A", "G", "T"]
  else if c = 'H' then ["A", "C", "T"]
  else if c = 'V' then ["A", "C", "G"]
  else if c = 'N' then ["A", "C", "G", "T"]
  else [String.mk [c]]

/-- Cartesian concatenation of per-character expansions, first character
slowest (the order of `itertools.product`). -/
def cartesianConcat : List (List String) → List String
  | [] => [""]
  | cs :: rest => cs.flatMap fun x => (cartesianConcat rest).map fun y => x ++ y

/-- Modelled from the spec: `expand_nt` expands IUPAC ambiguity codes to the
Cartesian expansion over a multi-character string. -/
def expand_nt (s : String) : List String :=
  cartesianConcat (s.data.map expandNtChar)

/-- Length of the longest common prefix of two character lists. -/
def commonPrefixLen : List Char → List Char → Nat
  | a :: as, b :: bs => if a = b then commonPrefixLen as bs + 1 else 0
  | _, _ => 0

/-- Modelled from the spec: `collapse_seq_change` strips the longest shared
prefix and suffix of `ref`/`alt` and reports the trimmed counts; if the trim
would consume one of the strings entirely it returns the untrimmed pair with
zero trims (tested: `("ATG","ATGATG") -> ("ATG","ATGATG",0,0)`). -/
def collapse_seq_change (ref alt : String) : String × String × Int × Int :=
  let p := commonPrefixLen ref.data alt.data
  let s := commonPrefixLen (ref.data.drop p).reverse (alt.data.drop p).reverse
  if ref.length ≤ p + s ∨ alt.length ≤ p + s then (ref, alt, 0, 0)
  else
    (String.mk ((ref.data.drop p).take (ref.length - p - s)),
     String.mk ((alt.data.drop p).take (alt.length - p - s)),
     (p : Int), (s : Int))

/-- Modelled from the spec (§4.4 classifier table): a deletion has an empty
alt and a non-empty ref. -/
def is_deletion (ref alt : String) : Bool :=
  ref ≠ "" && alt = ""

/-- Modelled from the spec (§4.4 classifier table): `alt` consists of `ref`
repeated (`alt == ref + ref`). -/
def is_duplication (ref alt : String) : Bool :=
  alt = ref ++ ref

/-- Modelled from the spec (§4.4 classifier table): an insertion has an empty
ref and a non-empty alt. -/
def is_insertion (ref alt : String) : Bool :=
  ref = "" && alt ≠ ""

/-- Modelled from the spec (§4.4 classifier table): equal lengths, differing
content, no indel. -/
def is_substitution (ref alt : String) : Bool :=
  ref.length = alt.length && ref ≠ alt

/-- Modelled from the spec (§4.4 classifier table): both non-empty, unequal
content and length, not a clean duplication. -/
def is_delins (ref alt : String) : Bool :=
  ref ≠ "" && alt ≠ "" && ref ≠ alt && ref.length ≠ alt.length &&
    !is_duplication ref alt

/-- Modelled from the spec: a frameshift is a net length change not divisible
by 3; `core.py` invokes the predicate on the `(refseq, altseq)` pair. -/
def is_frameshift (ref alt : String) : Bool :=
  Int.emod ((ref.length : Int) - (alt.length : Int)) 3 ≠ 0

/-- Chunks of three characters. -/
def chunk3 : List Char → List String
  | a :: b :: c :: rest => String.mk [a, b, c] :: chunk3 rest
  | _ => []

/-- Modelled from the spec: `split_by_codon` splits into 3-character chunks and
fails with `LengthError` when the length is not divisible by 3. -/
def split_by_codon (s : String) : Except Err (List String) :=
  if s.length % 3 ≠ 0 then .error .LengthError else .ok (chunk3 s.data)

/-! The conversion methods `Core._<a>_to_<b>`.  Each one embeds the dataframe
boolean mask as a `List.filter` over the row list and the per-row loop as a
`List.map`; the nested `convert` closures become auxiliary functions. -/

/-- The `feature` filter list: `["CDS", "stop_codon"]` or `["CDS"]`. -/
def cdsFeatures (include_stop : Bool) : List String :=
  if include_stop then ["CDS", "stop_codon"] else ["CDS"]

/-- The dataframe mask shared by `_cdna_to_cdna`, `_cdna_to_dna`,
`_cdna_to_exon` and `_cdna_to_rna`: rows of the requested transcripts whose
`cdna_start..cdna_end` span contains the position, on a requested strand, with
a requested feature. -/
def cdnaMask (df : List Row) (tids strandL feature : List String) (pos : Int) :
    List Row :=
  df.filter fun r => decide (r.transcript_id ∈ tids ∧ r.cdna_start ≤ pos ∧
    pos ≤ r.cdna_end ∧ r.strand ∈ strandL ∧ r.feature ∈ feature)

/-- The cDNA position built by the mask branch of `_cdna_to_cdna.convert`:
`start`/`end` are the outer arguments, both offsets are the endpoint's offset,
the identity fields come from the row. -/
def rowToCdnaAt (startArg endArg off : Int) (r : Row) : CdnaPos :=
  { contig_id := r.contig_id, start := startArg, start_offset := off,
    end_ := endArg, end_offset := off, strand := r.strand,
    gene_id := r.gene_id, gene_name := r.gene_name,
    transcript_id := r.transcript_id, transcript_name := r.transcript_name,
    protein_id := r.protein_id }

/-- `_cdna_to_dna.convert`: one DNA position per matching row, measured from
the row's genomic `end` on `-` strand and from its genomic `start` otherwise,
the offset applied on the genomic strand. -/
def cdnaToDnaConvert (df : List Row) (tids strandL feature : List String)
    (pos off : Int) : List DnaPos :=
  (cdnaMask df tids strandL feature pos).map fun r =>
    let g := if r.strand = "-" then r.end_ - (pos - r.cdna_start) - off
             else r.start + (pos - r.cdna_start) + off
    { contig_id := r.contig_id, start := g, start_offset := 0,
      end_ := g, end_offset := 0, strand := r.strand }

/-- `Core._cdna_to_dna`. -/
def cdnaToDna (df : List Row) (tids : List String) (start so end_ eo : Int)
    (strandL : List String) (include_stop : Bool) : List DnaPos :=
  let feature := cdsFeatures include_stop
  let rs := cdnaToDnaConvert df tids strandL feature start so
  if start = end_ then pySort dnaStr rs
  else mergeDna rs (cdnaToDnaConvert df tids strandL feature end_ eo)

/-- The per-strand dataframe mask of `_dna_to_cdna.convert`: rows of the
requested contigs whose genomic span contains the offset-adjusted position, on
the given strand, with a requested feature. -/
def dnaMaskStrand (df : List Row) (cids : List String) (sigma : String)
    (feature : List String) (posAdj : Int) : List Row :=
  df.filter fun r => decide (r.contig_id ∈ cids ∧ r.start ≤ posAdj ∧
    posAdj ≤ r.end_ ∧ r.strand = sigma ∧ r.feature ∈ feature)

/-- `_dna_to_cdna.convert`: for each requested strand, adjust the position by
the offset on that strand, then emit one cDNA position per matching row. -/
def dnaToCdnaConvert (df : List Row) (cids strandL feature : List String)
    (pos off : Int) : List CdnaPos :=
  strandL.flatMap fun sigma =>
    let posAdj := if sigma = "-" then pos - off else pos + off
    (dnaMaskStrand df cids sigma feature posAdj).map fun r =>
      let n := if r.strand = "-" then r.end_ - posAdj + r.cdna_start
               else posAdj - r.start + r.cdna_start
      { contig_id := r.contig_id, start := n, start_offset := 0,
        end_ := n, end_offset := 0, strand := r.strand,
        gene_id := r.gene_id, gene_name := r.gene_name,
        transcript_id := r.transcript_id, transcript_name := r.transcript_name,
        protein_id := r.protein_id }

/-- `Core._dna_to_cdna`. -/
def dnaToCdna (df : List Row) (cids : List String) (start so end_ eo : Int)
    (strandL : List String) (include_stop : Bool) : List CdnaPos :=
  let feature := cdsFeatures include_stop
  let rs := dnaToCdnaConvert df cids strandL feature start so
  if start = end_ then pySort cdnaStr rs
  else mergeCdna rs (dnaToCdnaConvert df cids strandL feature end_ eo)

/-- `_cdna_to_cdna.convert`: an offset endpoint is first normalised through
the equivalent DNA position (`_cdna_to_dna` then `DnaMappablePosition.to_cdna`,
the latter with its default `include_stop=True`), keeping the same-transcript
results; when that yields nothing (or there is no offset), the dataframe mask
branch emits one position per row, carrying the offset through. -/
def cdnaToCdnaConvert (df : List Row) (tids strandL feature : List String)
    (include_stop : Bool) (startArg endArg pos off : Int) : List CdnaPos :=
  let offsetResult :=
    if off ≠ 0 then
      (cdnaToDna df tids pos off pos off strandL include_stop).flatMap fun dna =>
        (dnaToCdna df [dna.contig_id] dna.start dna.start_offset dna.end_
            dna.end_offset [dna.strand] true).filter
          fun c => decide (c.transcript_id ∈ tids)
    else []
  if offsetResult ≠ [] then offsetResult
  else (cdnaMask df tids strandL feature pos).map (rowToCdnaAt startArg endArg off)

/-- `Core._cdna_to_cdna`. -/
def cdnaToCdna (df : List Row) (tids : List String) (start so end_ eo : Int)
    (strandL : List String) (include_stop : Bool) : List CdnaPos :=
  let feature := cdsFeatures include_stop
  let rs := cdnaToCdnaConvert df tids strandL feature include_stop start end_ start so
  if start = end_ then pySort cdnaStr rs
  else mergeCdna rs (cdnaToCdnaConvert df tids strandL feature include_stop start end_ end_ eo)

/-- The codon arithmetic of `_cdna_to_protein` and `_protein_to_dna`:
`floor((n - 1) / 3 + 1)`, which equals `floor((n - 1) / 3) + 1`. -/
def pconvert (n : Int) : Int :=
  Int.fdiv (n - 1) 3 + 1

/-- `Core._cdna_to_protein`: normalise through `_cdna_to_cdna` (stop codon
excluded), drop candidates that still carry an offset, divide the surviving
coordinates into codons. -/
def cdnaToProtein (df : List Row) (tids : List String) (start so end_ eo : Int)
    (strandL : List String) : List ProteinPos :=
  (cdnaToCdna df tids start so end_ eo strandL false).filterMap fun c =>
    if c.start_offset ≠ 0 ∨ c.end_offset ≠ 0 then none
    else some { contig_id := c.contig_id, start := pconvert c.start,
                start_offset := 0, end_ := pconvert c.end_, end_offset := 0,
                strand := c.strand, gene_id := c.gene_id,
                gene_name := c.gene_name, transcript_id := c.transcript_id,
                transcript_name := c.transcript_name, protein_id := c.protein_id }

/-- `Core._protein_to_cdna`: asserts zero offsets, then requests the full codon
span `[(start-1)*3+1, (end-1)*3+1+2]` from `_cdna_to_cdna` (stop codon
excluded). -/
def proteinToCdna (df : List Row) (tids : List String) (start so end_ eo : Int)
    (strandL : List String) : Except Err (List CdnaPos) :=
  if so ≠ 0 then .error .OffsetError
  else if eo ≠ 0 then .error .OffsetError
  else
    let cs := (start - 1) * 3 + 1
    let ce := (end_ - 1) * 3 + 1 + 2
    .ok (cdnaToCdna df tids cs 0 ce 0 strandL false)

/-- `Core._dna_to_dna`: sort the two endpoints, then emit one position per
(contig, strand) pair of the input lists, shifting by the offsets on the
strand, never touching the dataframe `df`. -/
def dnaToDna (df : List Row) (cids : List String) (start so end_ eo : Int)
    (strandL : List String) : List DnaPos :=
  let s := min start end_
  let e := max start end_
  cids.flatMap fun c => strandL.map fun sigma =>
    if sigma = "-" then
      { contig_id := c, start := s - so, start_offset := 0,
        end_ := e - eo, end_offset := 0, strand := sigma }
    else
      { contig_id := c, start := s + so, start_offset := 0,
        end_ := e + eo, end_offset := 0, strand := sigma }

/-- The public `Core.dna_to_dna` path: `_map` wraps `_dna_to_dna` in
`sorted(set(...))` (the feature-to-contig resolution of the excluded lookup
layer is elided; the contig IDs are passed directly). -/
def dnaToDnaMapped (df : List Row) (cids : List String) (start so end_ eo : Int)
    (strandL : List String) : List DnaPos :=
  pySort dnaStr (List.dedup (dnaToDna df cids start so end_ eo strandL))

/-! The `_exon_to_*` conversions.  Their `convert` closures start with
`assert not offset`, embedded as `Err.OffsetError` (spec §7); note that the
top-level branch evaluates `convert(start, start_offset)` first and never
reaches `convert(end, end_offset)` when `start == end`. -/

/-- The dataframe mask of the `_exon_to_*` conversions: rows of the requested
transcripts with the requested `exon_number`, strand and feature. -/
def exonMask (df : List Row) (tids strandL feature : List String) (pos : Int) :
    List Row :=
  df.filter fun r => decide (r.transcript_id ∈ tids ∧ r.exon_number = pos ∧
    r.strand ∈ strandL ∧ r.feature ∈ feature)

/-- `_exon_to_cdna.convert`. -/
def exonToCdnaConvert (df : List Row) (tids strandL feature : List String)
    (pos off : Int) : Except Err (List CdnaPos) :=
  if off ≠ 0 then .error .OffsetError
  else .ok ((exonMask df tids strandL feature pos).map fun r =>
    { contig_id := r.contig_id, start := r.cdna_start, start_offset := 0,
      end_ := r.cdna_end, end_offset := 0, strand := r.strand,
      gene_id := r.gene_id, gene_name := r.gene_name,
      transcript_id := r.transcript_id, transcript_name := r.transcript_name,
      protein_id := r.protein_id })

/-- `Core._exon_to_cdna`. -/
def exonToCdna (df : List Row) (tids : List String) (start so end_ eo : Int)
    (strandL : List String) (include_stop : Bool) : Except Err (List CdnaPos) := do
  let feature := cdsFeatures include_stop
  let rs ← exonToCdnaConvert df tids strandL feature start so
  if start = end_ then pure (pySort cdnaStr rs)
  else do
    let re ← exonToCdnaConvert df tids strandL feature end_ eo
    pure (mergeCdna rs re)

/-- `_exon_to_dna.convert`. -/
def exonToDnaConvert (df : List Row) (tids strandL : List String)
    (pos off : Int) : Except Err (List DnaPos) :=
  if off ≠ 0 then .error .OffsetError
  else .ok ((exonMask df tids strandL ["exon"] pos).map fun r =>
    { contig_id := r.contig_id, start := r.start, start_offset := 0,
      end_ := r.end_, end_offset := 0, strand := r.strand })

/-- `Core._exon_to_dna`. -/
def exonToDna (df : List Row) (tids : List String) (start so end_ eo : Int)
    (strandL : List String) : Except Err (List DnaPos) := do
  let rs ← exonToDnaConvert df tids strandL start so
  if start = end_ then pure (pySort dnaStr rs)
  else do
    let re ← exonToDnaConvert df tids strandL end_ eo
    pure (mergeDna rs re)

/-- `_exon_to_exon.convert`. -/
def exonToExonConvert (df : List Row) (tids strandL : List String)
    (pos off : Int) : Except Err (List ExonPos) :=
  if off ≠ 0 then .error .OffsetError
  else .ok ((exonMask df tids strandL ["exon"] pos).map fun r =>
    { contig_id := r.contig_id, start := r.exon_number, start_offset := 0,
      end_ := r.exon_number, end_offset := 0, strand := r.strand,
      gene_id := r.gene_id, gene_name := r.gene_name,
      transcript_id := r.transcript_id, transcript_name := r.transcript_name,
      exon_id := r.exon_id })

/-- `Core._exon_to_exon`. -/
def exonToExon (df : List Row) (tids : List String) (start so end_ eo : Int)
    (strandL : List String) : Except Err (List ExonPos) := do
  let rs ← exonToExonConvert df tids strandL start so
  if start = end_ then pure (pySort exonStr rs)
  else do
    let re ← exonToExonConvert df tids strandL end_ eo
    pure (mergeExon rs re)

/-- `_exon_to_rna.convert`. -/
def exonToRnaConvert (df : List Row) (tids strandL : List String)
    (pos off : Int) : Except Err (List RnaPos) :=
  if off ≠ 0 then .error .OffsetError
  else .ok ((exonMask df tids strandL ["exon"] pos).map fun r =>
    { contig_id := r.contig_id, start := r.transcript_start, start_offset := 0,
      end_ := r.transcript_end, end_offset := 0, strand := r.strand,
      gene_id := r.gene_id, gene_name := r.gene_name,
      transcript_id := r.transcript_id, transcript_name := r.transcript_name })

/-- `Core._exon_to_rna`. -/
def exonToRna (df : List Row) (tids : List String) (start so end_ eo : Int)
    (strandL : List String) : Except Err (List RnaPos) := do
  let rs ← exonToRnaConvert df tids strandL start so
  if start = end_ then pure (pySort rnaStr rs)
  else do
    let re ← exonToRnaConvert df tids strandL end_ eo
    pure (mergeRna rs re)

/-- `Core._exon_to_protein`: `_exon_to_cdna` with the stop codon excluded, then
`CdnaMappablePosition.to_protein` on each result. -/
def exonToProtein (df : List Row) (tids : List String) (start so end_ eo : Int)
    (strandL : List String) : Except Err (List ProteinPos) :=
  (exonToCdna df tids start so end_ eo strandL false).map fun cdnas =>
    cdnas.flatMap fun c =>
      cdnaToProtein df [c.transcript_id] c.start c.start_offset c.end_
        c.end_offset [c.strand]

/-! The variant layer: sequence access and the `from_<system>` constructors. -/

/-- The sequence provider (FASTA stores, an external collaborator): a total
subsequence function per sequence kind, 1-based inclusive. -/
structure SeqStore where
  cds : String → Int → Int → String
  rna : String → Int → Int → String
  pep : String → Int → Int → String

/-- `CdnaPosition.sequence`: refuses offset positions, otherwise reads the CDS
subsequence of the transcript. -/
def cdnaSequence (store : SeqStore) (p : CdnaPos) : Except Err String :=
  if p.start_offset ≠ 0 ∨ p.end_offset ≠ 0 then .error .OffsetError
  else .ok (store.cds p.transcript_id p.start p.end_)

/-- `RnaPosition.sequence`. -/
def rnaSequence (store : SeqStore) (p : RnaPos) : Except Err String :=
  if p.start_offset ≠ 0 ∨ p.end_offset ≠ 0 then .error .OffsetError
  else .ok (store.rna p.transcript_id p.start p.end_)

/-- `ProteinPosition.sequence`. -/
def proteinSequence (store : SeqStore) (p : ProteinPos) : Except Err String :=
  if p.start_offset ≠ 0 ∨ p.end_offset ≠ 0 then .error .OffsetError
  else .ok (store.pep p.protein_id p.start p.end_)

/-- The five small-variant kinds. -/
inductive VarKind where
  | deletion
  | delins
  | duplication
  | insertion
  | substitution
  deriving DecidableEq, Repr

/-- A cDNA small variant: one of the `Cdna<Kind>` dataclasses, the kind made
explicit (it is fixed by the class in the source). -/
structure CdnaVariant where
  kind : VarKind
  contig_id : String
  start : Int
  start_offset : Int
  end_ : Int
  end_offset : Int
  strand : String
  gene_id : String
  gene_name : String
  transcript_id : String
  transcript_name : String
  protein_id : String
  refseq : String
  altseq : String
  deriving DecidableEq, Repr

/-- A DNA small variant. -/
structure DnaVariant where
  kind : VarKind
  contig_id : String
  start : Int
  start_offset : Int
  end_ : Int
  end_offset : Int
  strand : String
  refseq : String
  altseq : String
  deriving DecidableEq, Repr

/-- An RNA small variant. -/
structure RnaVariant where
  kind : VarKind
  contig_id : String
  start : Int
  start_offset : Int
  end_ : Int
  end_offset : Int
  strand : String
  gene_id : String
  gene_name : String
  transcript_id : String
  transcript_name : String
  refseq : String
  altseq : String
  deriving DecidableEq, Repr

/-- A protein small variant. -/
structure ProteinVariant where
  kind : VarKind
  contig_id : String
  start : Int
  start_offset : Int
  end_ : Int
  end_offset : Int
  strand : String
  gene_id : String
  gene_name : String
  transcript_id : String
  transcript_name : String
  protein_id : String
  refseq : String
  altseq : String
  deriving DecidableEq, Repr

/-- The classification ladder shared by `from_cdna`, `from_dna` and `from_rna`
(in its source order: deletion, delins, duplication, insertion, substitution);
`none` is the final `raise NotImplementedError` branch. -/
def classify (ref alt : String) : Option VarKind :=
  if is_deletion ref alt then some .deletion
  else if is_delins ref alt then some .delins
  else if is_duplication ref alt then some .duplication
  else if is_insertion ref alt then some .insertion
  else if is_substitution ref alt then some .substitution
  else none

/-- The loop body of `CdnaSmallVariant.from_cdna` over the expansion pairs:
raise `RefMismatchError` at the first pair whose ref differs from the annotated
sequence, otherwise collapse, classify and build. -/
def fromCdnaPairs (cdna : CdnaPos) (ann : String) :
    List (String × String) → Except Err (List CdnaVariant)
  | [] => .ok []
  | (ref, alt) :: rest =>
    if ref ≠ ann then .error .RefMismatchError
    else
      match collapse_seq_change ref alt with
      | (newRef, newAlt, ts, te) =>
        match classify newRef newAlt with
        | none => .error .NotImplementedError
        | some k =>
          (fromCdnaPairs cdna ann rest).map fun l =>
            { kind := k, contig_id := cdna.contig_id,
              start := cdna.start + ts, start_offset := cdna.start_offset,
              end_ := cdna.end_ - te, end_offset := cdna.end_offset,
              strand := cdna.strand, gene_id := cdna.gene_id,
              gene_name := cdna.gene_name, transcript_id := cdna.transcript_id,
              transcript_name := cdna.transcript_name,
              protein_id := cdna.protein_id,
              refseq := newRef, altseq := newAlt } :: l

/-- `CdnaSmallVariant.from_cdna`. -/
def fromCdna (store : SeqStore) (cdna : CdnaPos) (refseq altseq : String) :
    Except Err (List CdnaVariant) := do
  let ann ← cdnaSequence store cdna
  fromCdnaPairs cdna ann (listProd (expand_nt refseq) (expand_nt altseq))

/-- The loop body of `RnaSmallVariant.from_rna`. -/
def fromRnaPairs (rna : RnaPos) (ann : String) :
    List (String × String) → Except Err (List RnaVariant)
  | [] => .ok []
  | (ref, alt) :: rest =>
    if ref ≠ ann then .error .RefMismatchError
    else
      match collapse_seq_change ref alt with
      | (newRef, newAlt, ts, te) =>
        match classify newRef newAlt with
        | none => .error .NotImplementedError
        | some k =>
          (fromRnaPairs rna ann rest).map fun l =>
            { kind := k, contig_id := rna.contig_id,
              start := rna.start + ts, start_offset := rna.start_offset,
              end_ := rna.end_ - te, end_offset := rna.end_offset,
              strand := rna.strand, gene_id := rna.gene_id,
              gene_name := rna.gene_name, transcript_id := rna.transcript_id,
              transcript_name := rna.transcript_name,
              refseq := newRef, altseq := newAlt } :: l

/-- `RnaSmallVariant.from_rna`. -/
def fromRna (store : SeqStore) (rna : RnaPos) (refseq altseq : String) :
    Except Err (List RnaVariant) := do
  let ann ← rnaSequence store rna
  fromRnaPairs rna ann (listProd (expand_nt refseq) (expand_nt altseq))

/-- The loop body of `DnaSmallVariant.from_dna`: the annotated-reference check
is commented out in the source ("TODO: DNA sequence get is slow"). -/
def fromDnaPairs (dna : DnaPos) :
    List (String × String) → Except Err (List DnaVariant)
  | [] => .ok []
  | (ref, alt) :: rest =>
    match collapse_seq_change ref alt with
    | (newRef, newAlt, ts, te) =>
      match classify newRef newAlt with
      | none => .error .NotImplementedError
      | some k =>
        (fromDnaPairs dna rest).map fun l =>
          { kind := k, contig_id := dna.contig_id,
            start := dna.start + ts, start_offset := dna.start_offset,
            end_ := dna.end_ - te, end_offset := dna.end_offset,
            strand := dna.strand, refseq := newRef, altseq := newAlt } :: l

/-- `DnaSmallVariant.from_dna`: no sequence fetch, no reference check. -/
def fromDna (dna : DnaPos) (refseq altseq : String) :
    Except Err (List DnaVariant) :=
  fromDnaPairs dna (listProd (expand_nt refseq) (expand_nt altseq))

/-- `Core.mutate_cds_to_protein`: empty ref is the insertion special case
(translate the alt codons directly), empty alt the deletion special case
(peptide `""`); otherwise read the enclosing codon span, substitute the alt
bases and translate.  The codon table `tbl` is the `AMINO_ACID_TABLE` of the
out-of-scope `tables.py`, passed in as a total function. -/
def mutate_cds_to_protein (store : SeqStore) (tbl : String → String)
    (tid : String) (cdna_start cdna_end : Int) (cdna_ref cdna_alt : String) :
    Except Err (List String) :=
  if cdna_ref = "" then do
    let peps ← (expand_nt cdna_alt).mapM fun i =>
      (split_by_codon i).map fun codons => String.join (codons.map tbl)
    .ok (pySort id (List.dedup peps))
  else if cdna_alt = "" then .ok [""]
  else
    let cso := Int.emod (cdna_start - 1) 3
    let codonStart := cdna_start - cso
    let ceo := 2 - Int.emod (cdna_end - 1) 3
    let codonEnd := cdna_end + ceo
    let codonRefseq := store.cds tid codonStart codonEnd
    if codonRefseq.length % 3 ≠ 0 then .error .AssertError
    else
      let left := codonRefseq.take cso.toNat
      let right := if ceo ≠ 0 then codonRefseq.takeRight ceo.toNat else ""
      do
        let peps ← (expand_nt cdna_alt).mapM fun i =>
          let codonAltseq := left ++ i ++ right
          if codonAltseq.length % 3 ≠ 0 then .error .AssertError
          else (split_by_codon codonAltseq).map fun codons =>
            String.join (codons.map tbl)
        .ok (pySort id (List.dedup peps))

/-- The classification ladder of `ProteinSmallVariant.from_cdna`, with the
frameshift check (on the cDNA ref/alt pair) between the duplication and
insertion branches, raising `NotImplementedError`. -/
def proteinBuild (cdna_ref cdna_alt newRef newAlt : String) :
    Except Err VarKind :=
  if is_deletion newRef newAlt then .ok .deletion
  else if is_delins newRef newAlt then .ok .delins
  else if is_duplication newRef newAlt then .ok .duplication
  else if is_frameshift cdna_ref cdna_alt then .error .NotImplementedError
  else if is_insertion newRef newAlt then .ok .insertion
  else if is_substitution newRef newAlt then .ok .substitution
  else .error .NotImplementedError

/-- The loop of `ProteinSmallVariant.from_cdna` over the cDNA expansion pairs:
each pair is pushed through `mutate_cds_to_protein`, and every resulting
peptide alt is collapsed against the annotated peptide and classified. -/
def fromCdnaProteinPairs (store : SeqStore) (tbl : String → String)
    (cdna : CdnaPos) (protein : ProteinPos) (proteinRefseq : String) :
    List (String × String) → Except Err (List ProteinVariant)
  | [] => .ok []
  | (cdna_ref, cdna_alt) :: rest => do
    let peps ← mutate_cds_to_protein store tbl cdna.transcript_id cdna.start
      cdna.end_ cdna_ref cdna_alt
    let vs ← peps.mapM fun proteinAlt =>
      match collapse_seq_change proteinRefseq proteinAlt with
      | (newRef, newAlt, ts, te) =>
        (proteinBuild cdna_ref cdna_alt newRef newAlt).map fun k =>
          { kind := k, contig_id := protein.contig_id,
            start := protein.start + ts, start_offset := protein.start_offset,
            end_ := protein.end_ - te, end_offset := protein.end_offset,
            strand := protein.strand, gene_id := protein.gene_id,
            gene_name := protein.gene_name,
            transcript_id := protein.transcript_id,
            transcript_name := protein.transcript_name,
            protein_id := protein.protein_id,
            refseq := newRef, altseq := newAlt }
    let restv ← fromCdnaProteinPairs store tbl cdna protein proteinRefseq rest
    pure (vs ++ restv)

/-- `ProteinSmallVariant.from_cdna`. -/
def fromCdnaProtein (store : SeqStore) (tbl : String → String) (cdna : CdnaPos)
    (protein : ProteinPos) (refseq altseq : String) :
    Except Err (List ProteinVariant) := do
  let proteinRefseq ← proteinSequence store protein
  fromCdnaProteinPairs store tbl cdna protein proteinRefseq
    (listProd (expand_nt refseq) (expand_nt altseq))

/-! Concrete fixtures: a one-transcript annotation table (one CDS row and the
matching exon row) and a constant sequence store, used to instantiate the
theorems below at computable inputs. -/

/-- A CDS annotation row: transcript `T` on contig `1`, forward strand, genomic
span 101..109, cDNA span 1..9, exon 1. -/
def row0 : Row :=
  { contig_id := "1", start := 101, end_ := 109, strand := "+",
    cdna_start := 1, cdna_end := 9, transcript_start := 1, transcript_end := 9,
    exon_number := 1, exon_id := "E", gene_id := "G", gene_name := "GN",
    transcript_id := "T", transcript_name := "TN", protein_id := "P",
    feature := "CDS" }

/-- The exon row matching `row0`. -/
def row0x : Row :=
  { row0 with feature := "exon" }

/-- The fixture annotation table. -/
def df0 : List Row := [row0, row0x]

/-- A constant sequence store. -/
def store0 : SeqStore :=
  { cds := fun _ _ _ => "A", rna := fun _ _ _ => "A", pep := fun _ _ _ => "M" }

/-- A constant codon table. -/
def tbl0 : String → String := fun _ => "M"

/-- A zero-offset single-base cDNA position on transcript `T`. -/
def cdna0 : CdnaPos :=
  { contig_id := "1", start := 1, start_offset := 0, end_ := 1, end_offset := 0,
    strand := "+", gene_id := "G", gene_name := "GN", transcript_id := "T",
    transcript_name := "TN", protein_id := "P" }

/-- A zero-offset single-residue protein position on protein `P`. -/
def protein0 : ProteinPos :=
  { contig_id := "1", start := 1, start_offset := 0, end_ := 1, end_offset := 0,
    strand := "+", gene_id := "G", gene_name := "GN", transcript_id := "T",
    transcript_name := "TN", protein_id := "P" }

/-- A zero-offset single-base DNA position on contig `1`. -/
def dna0 : DnaPos :=
  { contig_id := "1", start := 105, start_offset := 0, end_ := 105,
    end_offset := 0, strand := "+" }

/-- The cDNA position `T:c.5` (zero offsets). -/
def cdna5 : CdnaPos :=
  { cdna0 with start := 5, end_ := 5 }

/-- The protein position that `c.4_5` of transcript `T` maps to. -/
def ppw : ProteinPos :=
  { protein0 with start := 2, end_ := 2 }

/-- The cDNA codon span that `p.2` of transcript `T` maps to. -/
def qw : CdnaPos :=
  { contig_id := "1", start := 4, start_offset := 0, end_ := 6, end_offset := 0,
    strand := "+", gene_id := "G", gene_name := "GN", transcript_id := "T",
    transcript_name := "TN", protein_id := "P" }

/-- A start-endpoint candidate for the merge witness: `10..10` with offsets
`(1, 1)` on transcript `T`. -/
def mwa : CdnaPos :=
  { contig_id := "1", start := 10, start_offset := 1, end_ := 10, end_offset := 1,
    strand := "-", gene_id := "G", gene_name := "GN", transcript_id := "T",
    transcript_name := "TN", protein_id := "P" }

/-- An end-endpoint candidate for the merge witness: `5..5` with offsets
`(2, 2)` on transcript `T`. -/
def mwb : CdnaPos :=
  { contig_id := "1", start := 5, start_offset := 2, end_ := 5, end_offset := 2,
    strand := "-", gene_id := "G", gene_name := "GN", transcript_id := "T",
    transcript_name := "TN", protein_id := "P" }

/-- The zero-offset cDNA range `T:c.4_6` on the plus strand. -/
def cdna46 : CdnaPos :=
  { contig_id := "1", start := 4, start_offset := 0, end_ := 6, end_offset := 0,
    strand := "+", gene_id := "G", gene_name := "GN", transcript_id := "T",
    transcript_name := "TN", protein_id := "P" }

/-- A minus-strand CDS annotation row for transcript `TM`. -/
def rowM : Row :=
  { row0 with strand := "-", transcript_id := "TM" }

/-- A one-row fixture table on the minus strand. -/
def dfM : List Row := [rowM]

/-- The zero-offset cDNA range `TM:c.4_6` on the minus strand. -/
def cdnaM46 : CdnaPos :=
  { cdna46 with strand := "-", transcript_id := "TM" }

/-! Helper lemmas about the list machinery. -/

theorem charListLeB_total (x y : List Char) :
    charListLeB x y = true ∨ charListLeB y x = true := by
  induction x generalizing y with
  | nil => left; rfl
  | cons a as ih =>
    cases y with
    | nil => right; rfl
    | cons b bs =>
      by_cases hab : a.toNat < b.toNat
      · left; simp [charListLeB, hab]
      · by_cases hba : b.toNat < a.toNat
        · right; simp [charListLeB, hba]
        · rcases ih bs with h | h
          · left; simp [charListLeB, hab, hba, h]
          · right; simp [charListLeB, hab, hba, h]

theorem charListLeB_trans : ∀ {x y z : List Char}, charListLeB x y = true →
    charListLeB y z = true → charListLeB x z = true
  | [], _, _, _, _ => rfl
  | _ :: _, [], _, hxy, _ => by simp [charListLeB] at hxy
  | _ :: _, _ :: _, [], _, hyz => by simp [charListLeB] at hyz
  | a :: as, b :: bs, c :: cs, hxy, hyz => by
    simp only [charListLeB] at hxy hyz ⊢
    rcases Nat.lt_trichotomy a.toNat b.toNat with h1 | h1 | h1 <;>
      rcases Nat.lt_trichotomy b.toNat c.toNat with h2 | h2 | h2
    · simp [show a.toNat < c.toNat from by omega]
    · simp [show a.toNat < c.toNat from by omega]
    · simp [show ¬b.toNat < c.toNat from by omega,
            show c.toNat < b.toNat from by omega] at hyz
    · simp [show a.toNat < c.toNat from by omega]
    · have hxy2 : charListLeB as bs = true := by
        simpa [show ¬a.toNat < b.toNat from by omega,
               show ¬b.toNat < a.toNat from by omega] using hxy
      have hyz2 : charListLeB bs cs = true := by
        simpa [show ¬b.toNat < c.toNat from by omega,
               show ¬c.toNat < b.toNat from by omega] using hyz
      simp [show ¬a.toNat < c.toNat from by omega,
            show ¬c.toNat < a.toNat from by omega,
            charListLeB_trans hxy2 hyz2]
    · simp [show ¬b.toNat < c.toNat from by omega,
            show c.toNat < b.toNat from by omega] at hyz
    · simp [show ¬a.toNat < b.toNat from by omega,
            show b.toNat < a.toNat from by omega] at hxy
    · simp [show ¬a.toNat < b.toNat from by omega,
            show b.toNat < a.toNat from by omega] at hxy
    · simp [show ¬a.toNat < b.toNat from by omega,
            show b.toNat < a.toNat from by omega] at hxy

theorem strLeB_total (a b : String) : strLeB a b = true ∨ strLeB b a = true :=
  charListLeB_total a.data b.data

theorem strLeB_trans {a b c : String} (hab : strLeB a b = true)
    (hbc : strLeB b c = true) : strLeB a c = true :=
  charListLeB_trans hab hbc

theorem insertByStr_perm {α : Type} (s : α → String) (a : α) (l : List α) :
    List.Perm (insertByStr s a l) (a :: l) := by
  induction l with
  | nil => simp [insertByStr]
  | cons b t ih =>
    by_cases h : strLeB (s a) (s b) = true
    · simp [insertByStr, h]
    · simp only [insertByStr, if_neg h]
      exact List.Perm.trans (List.Perm.cons b ih) (List.Perm.swap a b t)

theorem pySort_perm {α : Type} (s : α → String) (l : List α) :
    List.Perm (pySort s l) l := by
  induction l with
  | nil => simp [pySort]
  | cons a t ih =>
    simp only [pySort, List.foldr_cons]
    exact List.Perm.trans (insertByStr_perm s a _) (List.Perm.cons a ih)

theorem mem_pySort {α : Type} (s : α → String) (l : List α) (x : α) :
    x ∈ pySort s l ↔ x ∈ l :=
  (pySort_perm s l).mem_iff

theorem insertByStr_pairwise {α : Type} (s : α → String) (a : α) (l : List α)
    (h : l.Pairwise (fun x y => strLeB (s x) (s y) = true)) :
    (insertByStr s a l).Pairwise (fun x y => strLeB (s x) (s y) = true) := by
  induction l with
  | nil => simp [insertByStr]
  | cons b t ih =>
    rw [List.pairwise_cons] at h
    by_cases hab : strLeB (s a) (s b) = true
    · simp only [insertByStr, if_pos hab, List.pairwise_cons]
      refine ⟨?_, h.1, h.2⟩
      intro x hx
      rcases List.mem_cons.mp hx with hx | hx
      · subst hx; exact hab
      · exact strLeB_trans hab (h.1 x hx)
    · simp only [insertByStr, if_neg hab, List.pairwise_cons]
      refine ⟨?_, ih h.2⟩
      intro x hx
      rw [(insertByStr_perm s a t).mem_iff] at hx
      rcases List.mem_cons.mp hx with hx | hx
      · rcases strLeB_total (s a) (s b) with hh | hh
        · exact absurd hh hab
        · rw [hx]; exact hh
      · exact h.1 x hx

theorem pySort_pairwise {α : Type} (s : α → String) (l : List α) :
    (pySort s l).Pairwise (fun x y => strLeB (s x) (s y) = true) := by
  induction l with
  | nil => simp [pySort]
  | cons a t ih =>
    simp only [pySort, List.foldr_cons]
    exact insertByStr_pairwise s a _ ih

theorem pySort_nodup {α : Type} (s : α → String) (l : List α) (h : l.Nodup) :
    (pySort s l).Nodup :=
  (pySort_perm s l).nodup_iff.mpr h

theorem mem_listProd {α β : Type} {xs : List α} {ys : List β} {p : α × β} :
    p ∈ listProd xs ys ↔ p.1 ∈ xs ∧ p.2 ∈ ys := by
  cases p with
  | mk a b =>
    simp only [listProd, List.mem_flatMap, List.mem_map, Prod.mk.injEq]
    constructor
    · rintro ⟨x, hx, y, hy, rfl, rfl⟩; exact ⟨hx, hy⟩
    · rintro ⟨ha, hb⟩; exact ⟨a, ha, b, hb, rfl, rfl⟩

theorem mem_mergePositions {P : Type} [DecidableEq P] (strOf key : P → String)
    (getStart : P → Int) (mk : P → P → P) (starts ends : List P) (x : P) :
    x ∈ mergePositions strOf key getStart mk starts ends ↔
      ∃ a ∈ starts, ∃ b ∈ ends, key a = key b ∧ x = mergedPair getStart mk a b := by
  simp only [mergePositions, mem_pySort, List.mem_dedup, List.mem_flatMap]
  constructor
  · rintro ⟨a, ha, b, hb, hx⟩
    refine ⟨a, ha, b, hb, ?_⟩
    by_cases hgt : getStart a > getStart b
    · simp only [if_pos hgt] at hx
      by_cases hk : key b = key a
      · simp only [if_pos hk, List.mem_singleton] at hx
        exact ⟨hk.symm, by simp [mergedPair, if_pos hgt, hx]⟩
      · simp [if_neg hk] at hx
    · simp only [if_neg hgt] at hx
      by_cases hk : key a = key b
      · simp only [if_pos hk, List.mem_singleton] at hx
        exact ⟨hk, by simp [mergedPair, if_neg hgt, hx]⟩
      · simp [if_neg hk] at hx
  · rintro ⟨a, ha, b, hb, hk, rfl⟩
    refine ⟨a, ha, b, hb, ?_⟩
    by_cases hgt : getStart a > getStart b
    · simp [if_pos hgt, hk.symm, mergedPair]
    · simp [if_neg hgt, hk, mergedPair]

theorem mergePositions_pairwise {P : Type} [DecidableEq P] (strOf key : P → String)
    (getStart : P → Int) (mk : P → P → P) (starts ends : List P) :
    (mergePositions strOf key getStart mk starts ends).Pairwise
      (fun x y => strLeB (strOf x) (strOf y) = true) :=
  pySort_pairwise strOf _

theorem mergePositions_nodup {P : Type} [DecidableEq P] (strOf key : P → String)
    (getStart : P → Int) (mk : P → P → P) (starts ends : List P) :
    (mergePositions strOf key getStart mk starts ends).Nodup :=
  pySort_nodup strOf _ (List.nodup_dedup _)

/-! Structural lemmas about the conversion functions. -/

theorem cdnaToCdnaConvert_zero_mem {df : List Row} {tids strandL feature : List String}
    {include_stop : Bool} {sArg eArg pos : Int} {c : CdnaPos}
    (h : c ∈ cdnaToCdnaConvert df tids strandL feature include_stop sArg eArg pos 0) :
    c.start = sArg ∧ c.end_ = eArg ∧ c.start_offset = 0 ∧ c.end_offset = 0 := by
  simp only [cdnaToCdnaConvert, ne_eq, not_true_eq_false, if_false,
    reduceIte, List.mem_map] at h
  obtain ⟨r, _, rfl⟩ := h
  exact ⟨rfl, rfl, rfl, rfl⟩

theorem cdnaToCdna_zero_mem {df : List Row} {tids strandL : List String}
    {include_stop : Bool} {s e : Int} {c : CdnaPos}
    (h : c ∈ cdnaToCdna df tids s 0 e 0 strandL include_stop) :
    c.start = s ∧ c.end_ = e ∧ c.start_offset = 0 ∧ c.end_offset = 0 := by
  simp only [cdnaToCdna] at h
  by_cases hse : s = e
  · rw [if_pos hse, mem_pySort] at h
    exact cdnaToCdnaConvert_zero_mem h
  · rw [if_neg hse] at h
    rw [mergeCdna, mem_mergePositions] at h
    obtain ⟨a, ha, b, hb, -, rfl⟩ := h
    obtain ⟨has, hae, haso, haeo⟩ := cdnaToCdnaConvert_zero_mem ha
    obtain ⟨hbs, hbe, hbso, hbeo⟩ := cdnaToCdnaConvert_zero_mem hb
    simp only [mergedPair]
    by_cases hgt : a.start > b.start
    · rw [if_pos hgt]
      exact ⟨by simp [cdnaSpanFrom, hbs], by simp [cdnaSpanFrom, hae],
        by simp [cdnaSpanFrom, hbso], by simp [cdnaSpanFrom, haeo]⟩
    · rw [if_neg hgt]
      exact ⟨by simp [cdnaSpanFrom, has], by simp [cdnaSpanFrom, hbe],
        by simp [cdnaSpanFrom, haso], by simp [cdnaSpanFrom, hbeo]⟩

theorem mem_cdnaToProtein {df : List Row} {tids strandL : List String}
    {s so e eo : Int} {pp : ProteinPos}
    (h : pp ∈ cdnaToProtein df tids s so e eo strandL) :
    ∃ c ∈ cdnaToCdna df tids s so e eo strandL false,
      c.start_offset = 0 ∧ c.end_offset = 0 ∧
      pp.start = pconvert c.start ∧ pp.end_ = pconvert c.end_ := by
  simp only [cdnaToProtein, List.mem_filterMap] at h
  obtain ⟨c, hc, hsome⟩ := h
  by_cases hoff : c.start_offset ≠ 0 ∨ c.end_offset ≠ 0
  · rw [if_pos hoff] at hsome; cases hsome
  · rw [if_neg hoff] at hsome
    push_neg at hoff
    obtain ⟨rfl⟩ := hsome
    exact ⟨c, hc, hoff.1, hoff.2, rfl, rfl⟩

theorem length_flatMap_const {α β : Type} (l : List α) (f : α → List β) (n : Nat)
    (h : ∀ a, (f a).length = n) : (l.flatMap f).length = l.length * n := by
  induction l with
  | nil => simp
  | cons a t ih => simp [List.flatMap_cons, ih, h a, Nat.succ_mul, Nat.add_comm]

/-! The claim theorems. -/

/-- C10: `_dna_to_dna` never consults the annotation table (its output does
not depend on `df`); it returns exactly one position per (contig, strand) pair
of the input lists, so the result is non-empty for non-empty inputs; `start`
and `end` are first sorted and then each shifted by its own offset, added on
the `+` strand and subtracted on the `-` strand; both output offsets are
zero. -/
theorem claim10_dna_to_dna (df df2 : List Row) (cids : List String)
    (s so e eo : Int) (strandL : List String) :
    dnaToDna df cids s so e eo strandL = dnaToDna df2 cids s so e eo strandL
    ∧ (dnaToDna df cids s so e eo strandL).length = cids.length * strandL.length
    ∧ (∀ p ∈ dnaToDna df cids s so e eo strandL,
        p.start_offset = 0 ∧ p.end_offset = 0 ∧
        ((p.strand = "-" ∧ p.start = min s e - so ∧ p.end_ = max s e - eo) ∨
         (p.strand ≠ "-" ∧ p.start = min s e + so ∧ p.end_ = max s e + eo)))
    ∧ (∀ c ∈ cids, ∀ sg ∈ strandL, ∃ p ∈ dnaToDna df cids s so e eo strandL,
        p.contig_id = c ∧ p.strand = sg)
    ∧ (cids ≠ [] → strandL ≠ [] → dnaToDna df cids s so e eo strandL ≠ []) := by
  refine ⟨rfl, ?_, ?_, ?_, ?_⟩
  · exact length_flatMap_const cids _ strandL.length fun c => by
      simp [List.length_map]
  · intro p hp
    simp only [dnaToDna, List.mem_flatMap, List.mem_map] at hp
    obtain ⟨c, hc, sg, hsg, hpe⟩ := hp
    by_cases hneg : sg = "-"
    · rw [if_pos hneg] at hpe
      subst hpe
      exact ⟨rfl, rfl, Or.inl ⟨hneg, rfl, rfl⟩⟩
    · rw [if_neg hneg] at hpe
      subst hpe
      exact ⟨rfl, rfl, Or.inr ⟨hneg, rfl, rfl⟩⟩
  · intro c hc sg hsg
    by_cases hneg : sg = "-"
    · refine ⟨{ contig_id := c, start := min s e - so, start_offset := 0,
                end_ := max s e - eo, end_offset := 0, strand := sg }, ?_, rfl, rfl⟩
      simp only [dnaToDna, List.mem_flatMap, List.mem_map]
      exact ⟨c, hc, sg, hsg, by rw [if_pos hneg]⟩
    · refine ⟨{ contig_id := c, start := min s e + so, start_offset := 0,
                end_ := max s e + eo, end_offset := 0, strand := sg }, ?_, rfl, rfl⟩
      simp only [dnaToDna, List.mem_flatMap, List.mem_map]
      exact ⟨c, hc, sg, hsg, by rw [if_neg hneg]⟩
  · intro hc hs hnil
    obtain ⟨c, hcm⟩ := List.exists_mem_of_ne_nil cids hc
    obtain ⟨sg, hsm⟩ := List.exists_mem_of_ne_nil strandL hs
    have hmem : ∃ p, p ∈ dnaToDna df cids s so e eo strandL := by
      by_cases hneg : sg = "-"
      · refine ⟨{ contig_id := c, start := min s e - so, start_offset := 0,
                  end_ := max s e - eo, end_offset := 0, strand := sg }, ?_⟩
        simp only [dnaToDna, List.mem_flatMap, List.mem_map]
        exact ⟨c, hcm, sg, hsm, by rw [if_pos hneg]⟩
      · refine ⟨{ contig_id := c, start := min s e + so, start_offset := 0,
                  end_ := max s e + eo, end_offset := 0, strand := sg }, ?_⟩
        simp only [dnaToDna, List.mem_flatMap, List.mem_map]
        exact ⟨c, hcm, sg, hsm, by rw [if_neg hneg]⟩
    obtain ⟨p, hp⟩ := hmem
    rw [hnil] at hp
    cases hp

/-- C10 witness at a concrete input. -/
theorem claim10_dna_to_dna_witness :
    ∃ p ∈ dnaToDna df0 ["1"] 5 1 7 2 ["+"], p.contig_id = "1" ∧ p.strand = "+" :=
  (claim10_dna_to_dna df0 [] ["1"] 5 1 7 2 ["+"]).2.2.2.1 "1" (by decide)
    "+" (by decide)

/-- C4 counterexample: the public DNA-to-DNA path (`_map`'s `sorted(set(...))`
around `_dna_to_dna`) returns, for a strand-unrestricted query, two distinct
positions with the same canonical string, so result lists are not
deduplicated per canonical string form. -/
theorem claim4_counterexample :
    dnaToDnaMapped [] ["1"] 5 0 5 0 ["+", "-"] =
      [{ contig_id := "1", start := 5, start_offset := 0, end_ := 5,
         end_offset := 0, strand := "+" },
       { contig_id := "1", start := 5, start_offset := 0, end_ := 5,
         end_offset := 0, strand := "-" }] ∧
    dnaStr { contig_id := "1", start := 5, start_offset := 0, end_ := 5,
             end_offset := 0, strand := "+" } =
      dnaStr { contig_id := "1", start := 5, start_offset := 0, end_ := 5,
               end_offset := 0, strand := "-" } ∧
    ({ contig_id := "1", start := 5, start_offset := 0, end_ := 5,
       end_offset := 0, strand := "+" } : DnaPos) ≠
      { contig_id := "1", start := 5, start_offset := 0, end_ := 5,
        end_offset := 0, strand := "-" } := by
  exact ⟨by decide, by decide, by decide⟩

/-- C4 amended: result lists of `_cdna_to_cdna`, of `merge_positions` and of
the `_map` wrapper are sorted in ascending canonical-string order, and
`merge_positions`/`_map` deduplicate by structural equality of all position
fields — not by canonical string, so positions differing only in fields the
canonical string does not render (e.g. strand) may each appear. -/
theorem claim4_amended (df : List Row) (tids : List String) (s so e eo : Int)
    (strandL : List String) (include_stop : Bool) (cids : List String)
    (S E : List CdnaPos) :
    (cdnaToCdna df tids s so e eo strandL include_stop).Pairwise
      (fun x y => strLeB (cdnaStr x) (cdnaStr y) = true)
    ∧ (dnaToDnaMapped df cids s so e eo strandL).Pairwise
      (fun x y => strLeB (dnaStr x) (dnaStr y) = true)
    ∧ (dnaToDnaMapped df cids s so e eo strandL).Nodup
    ∧ (mergeCdna S E).Pairwise (fun x y => strLeB (cdnaStr x) (cdnaStr y) = true)
    ∧ (mergeCdna S E).Nodup := by
  refine ⟨?_, pySort_pairwise _ _, pySort_nodup _ _ (List.nodup_dedup _),
    mergePositions_pairwise _ _ _ _ _ _, mergePositions_nodup _ _ _ _ _ _⟩
  simp only [cdnaToCdna]
  split
  · exact pySort_pairwise _ _
  · exact mergePositions_pairwise _ _ _ _ _ _

/-- C5 counterexample: a cDNA position with non-zero start and end offsets
(`c.1+1`) maps to a protein position, because `_cdna_to_cdna` first normalises
the offset through the DNA round trip; the claim that offset positions always
produce no protein result is false. -/
theorem claim5_counterexample :
    cdnaToProtein df0 ["T"] 1 1 1 1 ["+"] =
      [{ contig_id := "1", start := 1, start_offset := 0, end_ := 1,
         end_offset := 0, strand := "+", gene_id := "G", gene_name := "GN",
         transcript_id := "T", transcript_name := "TN", protein_id := "P" }] ∧
    (1 : Int) ≠ 0 := by
  exact ⟨by decide, by decide⟩

/-- C5 amended: the cDNA-to-protein conversion drops exactly the candidates
that still carry a non-zero offset after `_cdna_to_cdna` normalisation: the
result is empty if and only if every normalised candidate remains offset, so
an offset input produces protein results exactly when some candidate
normalises to a zero-offset position. -/
theorem claim5_amended (df : List Row) (tids : List String) (s so e eo : Int)
    (strandL : List String) :
    cdnaToProtein df tids s so e eo strandL = [] ↔
      ∀ c ∈ cdnaToCdna df tids s so e eo strandL false,
        c.start_offset ≠ 0 ∨ c.end_offset ≠ 0 := by
  constructor
  · intro h c hc
    by_contra hoff
    have hmem : (⟨c.contig_id, pconvert c.start, 0, pconvert c.end_, 0,
          c.strand, c.gene_id, c.gene_name, c.transcript_id,
          c.transcript_name, c.protein_id⟩ : ProteinPos) ∈
        cdnaToProtein df tids s so e eo strandL :=
      List.mem_filterMap.mpr ⟨c, hc, by rw [if_neg hoff]⟩
    rw [h] at hmem
    simp at hmem
  · intro h
    simp only [cdnaToProtein]
    rw [List.filterMap_eq_nil_iff]
    intro c hc
    rw [if_pos (h c hc)]

/-- C5 amended witness: on the fixture table the far-offset query `c.9+50`
keeps its offset through normalisation (the candidate list is non-empty, so
the all-candidates hypothesis is exercised non-vacuously) and yields no
protein position, while `c.1+1` normalises to `c.2` and yields one. -/
theorem claim5_amended_witness :
    cdnaToProtein df0 ["T"] 9 50 9 50 ["+"] = [] ∧
    cdnaToProtein df0 ["T"] 1 1 1 1 ["+"] ≠ [] := by
  constructor
  · exact (claim5_amended df0 ["T"] 9 50 9 50 ["+"]).mpr (by decide)
  · intro hnil
    have hall := (claim5_amended df0 ["T"] 1 1 1 1 ["+"]).mp hnil
    have hc2 := hall ⟨"1", 2, 0, 2, 0, "+", "G", "GN", "T", "TN", "P"⟩ (by decide)
    exact absurd hc2 (by decide)

/-- C9 counterexample: two cDNA positions differing only in strand are unequal
as dataclass values but have the same canonical string, so equality is not
defined by the canonical string form. -/
theorem claim9_counterexample :
    cdnaStr cdna0 = cdnaStr { cdna0 with strand := "-" } ∧
    cdna0 ≠ { cdna0 with strand := "-" } := by
  exact ⟨by decide, by decide⟩

/-- C9 amended: equality of positions is structural over all fields; it
implies equal canonical strings but not conversely; ordering (and hence
`sorted`) compares canonical strings; deduplication through a `set` collapses
exactly structurally equal positions. -/
theorem claim9_amended :
    (∀ p q : CdnaPos, p = q → cdnaStr p = cdnaStr q)
    ∧ (∀ (l : List CdnaPos) (p : CdnaPos), p ∈ List.dedup l ↔ p ∈ l)
    ∧ (∀ l : List CdnaPos, (List.dedup l).Nodup)
    ∧ (∀ l : List CdnaPos,
        (pySort cdnaStr l).Pairwise fun a b => strLeB (cdnaStr a) (cdnaStr b) = true) :=
  ⟨fun _ _ h => h ▸ rfl, fun _ _ => List.mem_dedup, fun l => l.nodup_dedup,
    fun l => pySort_pairwise _ l⟩

/-- C9 amended witness at a concrete input. -/
theorem claim9_amended_witness :
    cdnaStr cdna0 = cdnaStr cdna0 ∧ cdna0 ∈ List.dedup [cdna0] :=
  ⟨claim9_amended.1 cdna0 cdna0 rfl,
    (claim9_amended.2.1 [cdna0] cdna0).mpr (by decide)⟩

/-- C7 counterexample: an exon position with `start == end`, zero start offset
and non-zero end offset (here 5) does not raise on any of the five
conversions — the single-endpoint branch never inspects `end_offset` — so the
claim that every conversion of an offset exon position fails with
`OffsetError` is false. -/
theorem claim7_counterexample :
    (5 : Int) ≠ 0 ∧
    exonToCdna df0 ["T"] 1 0 1 5 ["+"] true ≠ .error .OffsetError ∧
    exonToDna df0 ["T"] 1 0 1 5 ["+"] ≠ .error .OffsetError ∧
    exonToExon df0 ["T"] 1 0 1 5 ["+"] ≠ .error .OffsetError ∧
    exonToRna df0 ["T"] 1 0 1 5 ["+"] ≠ .error .OffsetError ∧
    exonToProtein df0 ["T"] 1 0 1 5 ["+"] ≠ .error .OffsetError := by
  exact ⟨by decide, by decide, by decide, by decide, by decide, by decide⟩

/-- C7 amended: each of the five exon conversions fails with `OffsetError`
exactly when `start_offset` is non-zero, or `end_offset` is non-zero with
`start != end` (the end offset is only inspected when the endpoints differ);
zero-offset exon positions never trigger the error. -/
theorem claim7_amended (df : List Row) (tids : List String) (s so e eo : Int)
    (strandL : List String) (include_stop : Bool) :
    (exonToCdna df tids s so e eo strandL include_stop = .error .OffsetError ↔
      (so ≠ 0 ∨ (s ≠ e ∧ eo ≠ 0)))
    ∧ (exonToDna df tids s so e eo strandL = .error .OffsetError ↔
      (so ≠ 0 ∨ (s ≠ e ∧ eo ≠ 0)))
    ∧ (exonToExon df tids s so e eo strandL = .error .OffsetError ↔
      (so ≠ 0 ∨ (s ≠ e ∧ eo ≠ 0)))
    ∧ (exonToRna df tids s so e eo strandL = .error .OffsetError ↔
      (so ≠ 0 ∨ (s ≠ e ∧ eo ≠ 0)))
    ∧ (exonToProtein df tids s so e eo strandL = .error .OffsetError ↔
      (so ≠ 0 ∨ (s ≠ e ∧ eo ≠ 0))) := by
  by_cases hso : so = 0 <;> by_cases hse : s = e <;> by_cases heo : eo = 0 <;>
    refine ⟨?_, ?_, ?_, ?_, ?_⟩ <;>
    simp [exonToCdna, exonToDna, exonToExon, exonToRna, exonToProtein,
      exonToCdnaConvert, exonToDnaConvert, exonToExonConvert, exonToRnaConvert,
      hso, hse, heo, Except.map, Except.bind, bind, pure, Except.pure]

/-- C1: every cDNA-to-protein result coordinate is `floor((c - 1) / 3) + 1` of
the corresponding (normalised, zero-offset) cDNA candidate coordinate — for
zero-offset inputs, of the input coordinates themselves — and every
protein-to-cDNA result spans exactly the codon range
`[(start-1)*3+1, (end-1)*3+3]`, of length 3 for a single protein position. -/
theorem claim1_codon_arithmetic (df : List Row) (tids : List String)
    (cs so ce eo : Int) (strandL : List String) :
    (∀ pp ∈ cdnaToProtein df tids cs so ce eo strandL,
      ∃ c ∈ cdnaToCdna df tids cs so ce eo strandL false,
        c.start_offset = 0 ∧ c.end_offset = 0 ∧
        pp.start = Int.fdiv (c.start - 1) 3 + 1 ∧
        pp.end_ = Int.fdiv (c.end_ - 1) 3 + 1)
    ∧ (∀ pp ∈ cdnaToProtein df tids cs 0 ce 0 strandL,
        pp.start = Int.fdiv (cs - 1) 3 + 1 ∧ pp.end_ = Int.fdiv (ce - 1) 3 + 1)
    ∧ (∀ (p e : Int) (l : List CdnaPos),
        proteinToCdna df tids p 0 e 0 strandL = .ok l →
        ∀ q ∈ l, q.start = (p - 1) * 3 + 1 ∧ q.end_ = (e - 1) * 3 + 3 ∧
          (p = e → q.end_ - q.start + 1 = 3)) := by
  refine ⟨?_, ?_, ?_⟩
  · intro pp hpp
    obtain ⟨c, hc, h1, h2, h3, h4⟩ := mem_cdnaToProtein hpp
    exact ⟨c, hc, h1, h2, h3, h4⟩
  · intro pp hpp
    obtain ⟨c, hc, -, -, h3, h4⟩ := mem_cdnaToProtein hpp
    obtain ⟨hcs, hce, -, -⟩ := cdnaToCdna_zero_mem hc
    rw [hcs] at h3
    rw [hce] at h4
    exact ⟨h3, h4⟩
  · intro p e l hl q hq
    simp only [proteinToCdna, ne_eq, not_true_eq_false, reduceIte,
      Except.ok.injEq] at hl
    subst hl
    obtain ⟨hqs, hqe, -, -⟩ := cdnaToCdna_zero_mem hq
    refine ⟨hqs, by omega, fun hpe => by omega⟩

/-- C1 witness at the fixture table: `c.4_5` maps to `p.2` and `p.2` maps back
to the codon span `c.4_6`. -/
theorem claim1_codon_arithmetic_witness :
    (∃ c ∈ cdnaToCdna df0 ["T"] 4 0 5 0 ["+"] false,
      c.start_offset = 0 ∧ c.end_offset = 0 ∧
      ppw.start = Int.fdiv (c.start - 1) 3 + 1 ∧
      ppw.end_ = Int.fdiv (c.end_ - 1) 3 + 1) ∧
    (ppw.start = Int.fdiv (4 - 1) 3 + 1 ∧ ppw.end_ = Int.fdiv (5 - 1) 3 + 1) ∧
    (qw.start = (2 - 1) * 3 + 1 ∧ qw.end_ = (2 - 1) * 3 + 3 ∧
      ((2 : Int) = 2 → qw.end_ - qw.start + 1 = 3)) :=
  ⟨(claim1_codon_arithmetic df0 ["T"] 4 0 5 0 ["+"]).1 ppw (by decide),
   (claim1_codon_arithmetic df0 ["T"] 4 0 5 0 ["+"]).2.1 ppw (by decide),
   (claim1_codon_arithmetic df0 ["T"] 4 0 5 0 ["+"]).2.2 2 2 _ rfl qw (by decide)⟩

/-- C2: `merge_positions` keeps exactly the candidate pairs that agree on the
grouping key (`transcript_id` for cDNA, `contig_id` for DNA), producing for
each such pair the position built after the swap; for single-endpoint
candidates that position spans from the smaller mapped coordinate to the
larger, with `start_offset` from the candidate supplying the start and
`end_offset` from the candidate supplying the end. -/
theorem claim2_merge_positions (S E : List CdnaPos) (S2 E2 : List DnaPos) :
    (∀ x, x ∈ mergeCdna S E ↔ ∃ a ∈ S, ∃ b ∈ E,
        a.transcript_id = b.transcript_id ∧
        x = mergedPair (fun p => p.start) cdnaSpanFrom a b)
    ∧ (∀ a b : CdnaPos, a.start = a.end_ → b.start = b.end_ →
        (mergedPair (fun p => p.start) cdnaSpanFrom a b).start = min a.start b.start
        ∧ (mergedPair (fun p => p.start) cdnaSpanFrom a b).end_ = max a.end_ b.end_
        ∧ (mergedPair (fun p => p.start) cdnaSpanFrom a b).start_offset =
            (if b.start < a.start then b.start_offset else a.start_offset)
        ∧ (mergedPair (fun p => p.start) cdnaSpanFrom a b).end_offset =
            (if b.start < a.start then a.end_offset else b.end_offset))
    ∧ (∀ x, x ∈ mergeDna S2 E2 ↔ ∃ a ∈ S2, ∃ b ∈ E2,
        a.contig_id = b.contig_id ∧
        x = mergedPair (fun p => p.start) dnaSpanFrom a b)
    ∧ (∀ a b : DnaPos, a.start = a.end_ → b.start = b.end_ →
        (mergedPair (fun p => p.start) dnaSpanFrom a b).start = min a.start b.start
        ∧ (mergedPair (fun p => p.start) dnaSpanFrom a b).end_ = max a.end_ b.end_
        ∧ (mergedPair (fun p => p.start) dnaSpanFrom a b).start_offset =
            (if b.start < a.start then b.start_offset else a.start_offset)
        ∧ (mergedPair (fun p => p.start) dnaSpanFrom a b).end_offset =
            (if b.start < a.start then a.end_offset else b.end_offset)) := by
  refine ⟨fun x => mem_mergePositions cdnaStr _ _ cdnaSpanFrom S E x,
    ?_, fun x => mem_mergePositions dnaStr _ _ dnaSpanFrom S2 E2 x, ?_⟩
  · intro a b ha hb
    by_cases hgt : a.start > b.start
    · have hmin : min a.start b.start = b.start := min_eq_right (le_of_lt hgt)
      have hmax : max a.end_ b.end_ = a.end_ :=
        max_eq_left (by rw [← ha, ← hb]; exact le_of_lt hgt)
      simp only [mergedPair, if_pos hgt, cdnaSpanFrom, hmin, hmax,
        if_pos (show b.start < a.start from hgt)]
      exact ⟨by trivial, by trivial, by trivial, by trivial⟩
    · have hle : a.start ≤ b.start := le_of_not_lt hgt
      have hmin : min a.start b.start = a.start := min_eq_left hle
      have hmax : max a.end_ b.end_ = b.end_ :=
        max_eq_right (by rw [← ha, ← hb]; exact hle)
      simp only [mergedPair, if_neg hgt, cdnaSpanFrom, hmin, hmax,
        if_neg (show ¬b.start < a.start from not_lt_of_le hle)]
      exact ⟨by trivial, by trivial, by trivial, by trivial⟩
  · intro a b ha hb
    by_cases hgt : a.start > b.start
    · have hmin : min a.start b.start = b.start := min_eq_right (le_of_lt hgt)
      have hmax : max a.end_ b.end_ = a.end_ :=
        max_eq_left (by rw [← ha, ← hb]; exact le_of_lt hgt)
      simp only [mergedPair, if_pos hgt, dnaSpanFrom, hmin, hmax,
        if_pos (show b.start < a.start from hgt)]
      exact ⟨by trivial, by trivial, by trivial, by trivial⟩
    · have hle : a.start ≤ b.start := le_of_not_lt hgt
      have hmin : min a.start b.start = a.start := min_eq_left hle
      have hmax : max a.end_ b.end_ = b.end_ :=
        max_eq_right (by rw [← ha, ← hb]; exact hle)
      simp only [mergedPair, if_neg hgt, dnaSpanFrom, hmin, hmax,
        if_neg (show ¬b.start < a.start from not_lt_of_le hle)]
      exact ⟨by trivial, by trivial, by trivial, by trivial⟩

/-- C2 witness: merging an inverted candidate pair (start candidate at 10, end
candidate at 5, same transcript) swaps the pair, spans `5..10` and takes the
offsets from the respective suppliers. -/
theorem claim2_merge_positions_witness :
    (mergedPair (fun p => p.start) cdnaSpanFrom mwa mwb ∈ mergeCdna [mwa] [mwb]) ∧
    (mergedPair (fun p => p.start) cdnaSpanFrom mwa mwb).start = min mwa.start mwb.start ∧
    (mergedPair (fun p => p.start) cdnaSpanFrom mwa mwb).end_ = max mwa.end_ mwb.end_ ∧
    (mergedPair (fun p => p.start) cdnaSpanFrom mwa mwb).start_offset =
      (if mwb.start < mwa.start then mwb.start_offset else mwa.start_offset) ∧
    (mergedPair (fun p => p.start) cdnaSpanFrom mwa mwb).end_offset =
      (if mwb.start < mwa.start then mwa.end_offset else mwb.end_offset) := by
  obtain ⟨h1, h2, h3, h4⟩ :=
    (claim2_merge_positions [mwa] [mwb] [] []).2.1 mwa mwb (by decide) (by decide)
  exact ⟨((claim2_merge_positions [mwa] [mwb] [] []).1 _).mpr
    ⟨mwa, by decide, mwb, by decide, by decide, rfl⟩, h1, h2, h3, h4⟩


/-- C3: the round trip at the cDNA/DNA pair of systems cited by the spec.  For
any zero-offset cDNA position `P` with `start ≤ end` — a single base or a
range — whose mapping is one-to-one (exactly one annotation row matches the
cDNA query at each endpoint, and the same single row matches the genomic query
at each mapped coordinate), converting `P` to DNA and each result back to cDNA
yields a position with the canonical string of `P`, on either strand; the
minus-strand range passes through the `merge_positions` endpoint swap in both
directions. -/
theorem claim3_round_trip (df : List Row) (P : CdnaPos) (r : Row)
    (hle : P.start ≤ P.end_) (hso : P.start_offset = 0) (heo : P.end_offset = 0)
    (h1s : cdnaMask df [P.transcript_id] [P.strand] ["CDS", "stop_codon"] P.start = [r])
    (h1e : cdnaMask df [P.transcript_id] [P.strand] ["CDS", "stop_codon"] P.end_ = [r])
    (h2s : dnaMaskStrand df [r.contig_id] r.strand ["CDS", "stop_codon"]
        (if r.strand = "-" then r.end_ - (P.start - r.cdna_start)
         else r.start + (P.start - r.cdna_start)) = [r])
    (h2e : dnaMaskStrand df [r.contig_id] r.strand ["CDS", "stop_codon"]
        (if r.strand = "-" then r.end_ - (P.end_ - r.cdna_start)
         else r.start + (P.end_ - r.cdna_start)) = [r]) :
    ∃ d ∈ cdnaToDna df [P.transcript_id] P.start P.start_offset P.end_
        P.end_offset [P.strand] true,
      ∃ q ∈ dnaToCdna df [d.contig_id] d.start d.start_offset d.end_
          d.end_offset [d.strand] true,
        cdnaStr q = cdnaStr P := by
  have hr : r ∈ cdnaMask df [P.transcript_id] [P.strand] ["CDS", "stop_codon"]
      P.start := by
    rw [h1s]; exact List.mem_singleton_self r
  have htid : r.transcript_id = P.transcript_id := by
    simp only [cdnaMask, List.mem_filter, decide_eq_true_eq] at hr
    simpa using hr.2.1
  by_cases hse : P.start = P.end_
  · by_cases hstr : r.strand = "-"
    · refine ⟨⟨r.contig_id, r.end_ - (P.start - r.cdna_start), 0,
               r.end_ - (P.start - r.cdna_start), 0, r.strand⟩, ?_, ?_⟩
      · rw [← hse]
        simp only [cdnaToDna, cdsFeatures, eq_self_iff_true, if_true, mem_pySort,
          cdnaToDnaConvert]
        rw [h1s]
        simp only [List.map_cons, List.map_nil, List.mem_singleton,
          DnaPos.mk.injEq]
        rw [if_pos hstr]
        exact ⟨by trivial, by omega, by trivial, by omega, by trivial, by trivial⟩
      · refine ⟨⟨r.contig_id, P.start, 0, P.start, 0, r.strand, r.gene_id,
                 r.gene_name, r.transcript_id, r.transcript_name, r.protein_id⟩,
                ?_, ?_⟩
        · simp only [dnaToCdna, cdsFeatures, eq_self_iff_true, if_true,
            mem_pySort, dnaToCdnaConvert, List.flatMap_cons, List.flatMap_nil,
            List.append_nil]
          rw [if_pos hstr, sub_zero]
          rw [if_pos hstr] at h2s
          rw [h2s]
          simp only [List.map_cons, List.map_nil, List.mem_singleton,
            CdnaPos.mk.injEq]
          rw [if_pos hstr]
          exact ⟨by trivial, by omega, by trivial, by omega, by trivial, by trivial, by trivial, by trivial, by trivial, by trivial, by trivial⟩
        · simp only [cdnaStr, htid, hse]
    · refine ⟨⟨r.contig_id, r.start + (P.start - r.cdna_start), 0,
               r.start + (P.start - r.cdna_start), 0, r.strand⟩, ?_, ?_⟩
      · rw [← hse]
        simp only [cdnaToDna, cdsFeatures, eq_self_iff_true, if_true, mem_pySort,
          cdnaToDnaConvert]
        rw [h1s]
        simp only [List.map_cons, List.map_nil, List.mem_singleton,
          DnaPos.mk.injEq]
        rw [if_neg hstr]
        exact ⟨by trivial, by omega, by trivial, by omega, by trivial, by trivial⟩
      · refine ⟨⟨r.contig_id, P.start, 0, P.start, 0, r.strand, r.gene_id,
                 r.gene_name, r.transcript_id, r.transcript_name, r.protein_id⟩,
                ?_, ?_⟩
        · simp only [dnaToCdna, cdsFeatures, eq_self_iff_true, if_true,
            mem_pySort, dnaToCdnaConvert, List.flatMap_cons, List.flatMap_nil,
            List.append_nil]
          rw [if_neg hstr, add_zero]
          rw [if_neg hstr] at h2s
          rw [h2s]
          simp only [List.map_cons, List.map_nil, List.mem_singleton,
            CdnaPos.mk.injEq]
          rw [if_neg hstr]
          exact ⟨by trivial, by omega, by trivial, by omega, by trivial, by trivial, by trivial, by trivial, by trivial, by trivial, by trivial⟩
        · simp only [cdnaStr, htid, hse]
  · have hlt : P.start < P.end_ := lt_of_le_of_ne hle hse
    by_cases hstr : r.strand = "-"
    · rw [if_pos hstr] at h2s h2e
      have hcs : cdnaToDnaConvert df [P.transcript_id] [P.strand]
          ["CDS", "stop_codon"] P.start P.start_offset =
          [⟨r.contig_id, r.end_ - (P.start - r.cdna_start), 0,
            r.end_ - (P.start - r.cdna_start), 0, r.strand⟩] := by
        simp only [cdnaToDnaConvert]
        rw [h1s]
        simp only [List.map_cons, List.map_nil, List.cons.injEq,
          DnaPos.mk.injEq]
        rw [if_pos hstr]
        exact ⟨⟨by trivial, by omega, by trivial, by omega, by trivial,
          by trivial⟩, trivial⟩
      have hce : cdnaToDnaConvert df [P.transcript_id] [P.strand]
          ["CDS", "stop_codon"] P.end_ P.end_offset =
          [⟨r.contig_id, r.end_ - (P.end_ - r.cdna_start), 0,
            r.end_ - (P.end_ - r.cdna_start), 0, r.strand⟩] := by
        simp only [cdnaToDnaConvert]
        rw [h1e]
        simp only [List.map_cons, List.map_nil, List.cons.injEq,
          DnaPos.mk.injEq]
        rw [if_pos hstr]
        exact ⟨⟨by trivial, by omega, by trivial, by omega, by trivial,
          by trivial⟩, trivial⟩
      refine ⟨⟨r.contig_id, r.end_ - (P.end_ - r.cdna_start), 0,
               r.end_ - (P.start - r.cdna_start), 0, r.strand⟩, ?_, ?_⟩
      · simp only [cdnaToDna, cdsFeatures, eq_self_iff_true, if_true, mergeDna]
        rw [if_neg hse, hcs, hce]
        refine (mem_mergePositions dnaStr (fun p => p.contig_id)
            (fun p => p.start) dnaSpanFrom _ _ _).mpr
          ⟨_, List.mem_singleton_self _, _, List.mem_singleton_self _, rfl, ?_⟩
        simp only [mergedPair, gt_iff_lt]
        rw [if_pos (show r.end_ - (P.end_ - r.cdna_start) <
          r.end_ - (P.start - r.cdna_start) from by omega)]
        rfl
      · refine ⟨⟨r.contig_id, P.start, 0, P.end_, 0, r.strand, r.gene_id,
                 r.gene_name, r.transcript_id, r.transcript_name,
                 r.protein_id⟩, ?_, ?_⟩
        · have hq2s : dnaToCdnaConvert df [r.contig_id] [r.strand]
              ["CDS", "stop_codon"] (r.end_ - (P.end_ - r.cdna_start)) 0 =
              [⟨r.contig_id, P.end_, 0, P.end_, 0, r.strand, r.gene_id,
                r.gene_name, r.transcript_id, r.transcript_name,
                r.protein_id⟩] := by
            simp only [dnaToCdnaConvert, List.flatMap_cons, List.flatMap_nil,
              List.append_nil]
            rw [if_pos hstr, sub_zero, h2e]
            simp only [List.map_cons, List.map_nil, List.cons.injEq,
              CdnaPos.mk.injEq]
            rw [if_pos hstr]
            exact ⟨⟨by trivial, by omega, by trivial, by omega, by trivial,
              by trivial, by trivial, by trivial, by trivial, by trivial,
              by trivial⟩, trivial⟩
          have hq2e : dnaToCdnaConvert df [r.contig_id] [r.strand]
              ["CDS", "stop_codon"] (r.end_ - (P.start - r.cdna_start)) 0 =
              [⟨r.contig_id, P.start, 0, P.start, 0, r.strand, r.gene_id,
                r.gene_name, r.transcript_id, r.transcript_name,
                r.protein_id⟩] := by
            simp only [dnaToCdnaConvert, List.flatMap_cons, List.flatMap_nil,
              List.append_nil]
            rw [if_pos hstr, sub_zero, h2s]
            simp only [List.map_cons, List.map_nil, List.cons.injEq,
              CdnaPos.mk.injEq]
            rw [if_pos hstr]
            exact ⟨⟨by trivial, by omega, by trivial, by omega, by trivial,
              by trivial, by trivial, by trivial, by trivial, by trivial,
              by trivial⟩, trivial⟩
          simp only [dnaToCdna, cdsFeatures, eq_self_iff_true, if_true,
            mergeCdna]
          rw [if_neg (show ¬(r.end_ - (P.end_ - r.cdna_start) =
            r.end_ - (P.start - r.cdna_start)) from by omega), hq2s, hq2e]
          refine (mem_mergePositions cdnaStr (fun p => p.transcript_id)
              (fun p => p.start) cdnaSpanFrom _ _ _).mpr
            ⟨_, List.mem_singleton_self _, _, List.mem_singleton_self _, rfl, ?_⟩
          simp only [mergedPair, gt_iff_lt]
          rw [if_pos (show P.start < P.end_ from hlt)]
          rfl
        · simp only [cdnaStr, htid]
    · rw [if_neg hstr] at h2s h2e
      have hcs : cdnaToDnaConvert df [P.transcript_id] [P.strand]
          ["CDS", "stop_codon"] P.start P.start_offset =
          [⟨r.contig_id, r.start + (P.start - r.cdna_start), 0,
            r.start + (P.start - r.cdna_start), 0, r.strand⟩] := by
        simp only [cdnaToDnaConvert]
        rw [h1s]
        simp only [List.map_cons, List.map_nil, List.cons.injEq,
          DnaPos.mk.injEq]
        rw [if_neg hstr]
        exact ⟨⟨by trivial, by omega, by trivial, by omega, by trivial,
          by trivial⟩, trivial⟩
      have hce : cdnaToDnaConvert df [P.transcript_id] [P.strand]
          ["CDS", "stop_codon"] P.end_ P.end_offset =
          [⟨r.contig_id, r.start + (P.end_ - r.cdna_start), 0,
            r.start + (P.end_ - r.cdna_start), 0, r.strand⟩] := by
        simp only [cdnaToDnaConvert]
        rw [h1e]
        simp only [List.map_cons, List.map_nil, List.cons.injEq,
          DnaPos.mk.injEq]
        rw [if_neg hstr]
        exact ⟨⟨by trivial, by omega, by trivial, by omega, by trivial,
          by trivial⟩, trivial⟩
      refine ⟨⟨r.contig_id, r.start + (P.start - r.cdna_start), 0,
               r.start + (P.end_ - r.cdna_start), 0, r.strand⟩, ?_, ?_⟩
      · simp only [cdnaToDna, cdsFeatures, eq_self_iff_true, if_true, mergeDna]
        rw [if_neg hse, hcs, hce]
        refine (mem_mergePositions dnaStr (fun p => p.contig_id)
            (fun p => p.start) dnaSpanFrom _ _ _).mpr
          ⟨_, List.mem_singleton_self _, _, List.mem_singleton_self _, rfl, ?_⟩
        simp only [mergedPair, gt_iff_lt]
        rw [if_neg (show ¬(r.start + (P.end_ - r.cdna_start) <
          r.start + (P.start - r.cdna_start)) from by omega)]
        rfl
      · refine ⟨⟨r.contig_id, P.start, 0, P.end_, 0, r.strand, r.gene_id,
                 r.gene_name, r.transcript_id, r.transcript_name,
                 r.protein_id⟩, ?_, ?_⟩
        · have hq2s : dnaToCdnaConvert df [r.contig_id] [r.strand]
              ["CDS", "stop_codon"] (r.start + (P.start - r.cdna_start)) 0 =
              [⟨r.contig_id, P.start, 0, P.start, 0, r.strand, r.gene_id,
                r.gene_name, r.transcript_id, r.transcript_name,
                r.protein_id⟩] := by
            simp only [dnaToCdnaConvert, List.flatMap_cons, List.flatMap_nil,
              List.append_nil]
            rw [if_neg hstr, add_zero, h2s]
            simp only [List.map_cons, List.map_nil, List.cons.injEq,
              CdnaPos.mk.injEq]
            rw [if_neg hstr]
            exact ⟨⟨by trivial, by omega, by trivial, by omega, by trivial,
              by trivial, by trivial, by trivial, by trivial, by trivial,
              by trivial⟩, trivial⟩
          have hq2e : dnaToCdnaConvert df [r.contig_id] [r.strand]
              ["CDS", "stop_codon"] (r.start + (P.end_ - r.cdna_start)) 0 =
              [⟨r.contig_id, P.end_, 0, P.end_, 0, r.strand, r.gene_id,
                r.gene_name, r.transcript_id, r.transcript_name,
                r.protein_id⟩] := by
            simp only [dnaToCdnaConvert, List.flatMap_cons, List.flatMap_nil,
              List.append_nil]
            rw [if_neg hstr, add_zero, h2e]
            simp only [List.map_cons, List.map_nil, List.cons.injEq,
              CdnaPos.mk.injEq]
            rw [if_neg hstr]
            exact ⟨⟨by trivial, by omega, by trivial, by omega, by trivial,
              by trivial, by trivial, by trivial, by trivial, by trivial,
              by trivial⟩, trivial⟩
          simp only [dnaToCdna, cdsFeatures, eq_self_iff_true, if_true,
            mergeCdna]
          rw [if_neg (show ¬(r.start + (P.start - r.cdna_start) =
            r.start + (P.end_ - r.cdna_start)) from by omega), hq2s, hq2e]
          refine (mem_mergePositions cdnaStr (fun p => p.transcript_id)
              (fun p => p.start) cdnaSpanFrom _ _ _).mpr
            ⟨_, List.mem_singleton_self _, _, List.mem_singleton_self _, rfl, ?_⟩
          simp only [mergedPair, gt_iff_lt]
          rw [if_neg (show ¬(P.end_ < P.start) from by omega)]
          rfl
        · simp only [cdnaStr, htid]

/-- C3 witness: the range `T:c.4_6` on the plus-strand fixture table and the
range `TM:c.4_6` on the minus-strand fixture table each round-trip through
their genomic span back to a position rendering as the input. -/
theorem claim3_round_trip_witness :
    (∃ d ∈ cdnaToDna df0 ["T"] 4 0 6 0 ["+"] true,
       ∃ q ∈ dnaToCdna df0 [d.contig_id] d.start d.start_offset d.end_
           d.end_offset [d.strand] true,
         cdnaStr q = cdnaStr cdna46) ∧
    (∃ d ∈ cdnaToDna dfM ["TM"] 4 0 6 0 ["-"] true,
       ∃ q ∈ dnaToCdna dfM [d.contig_id] d.start d.start_offset d.end_
           d.end_offset [d.strand] true,
         cdnaStr q = cdnaStr cdnaM46) :=
  ⟨claim3_round_trip df0 cdna46 row0 (by decide) rfl rfl (by decide) (by decide)
      (by decide) (by decide),
   claim3_round_trip dfM cdnaM46 rowM (by decide) rfl rfl (by decide) (by decide)
      (by decide) (by decide)⟩

/-! Lemmas about the spec-modelled expansion and the variant constructors. -/

set_option maxHeartbeats 1000000 in
theorem expandNtChar_length (c : Char) (x : String) (hx : x ∈ expandNtChar c) :
    x.length = 1 := by
  simp only [expandNtChar] at hx
  repeat' split at hx
  all_goals
    simp only [List.mem_cons, List.mem_singleton, List.not_mem_nil,
      or_false] at hx
  all_goals repeat' rcases hx with rfl | hx
  all_goals first
    | rfl
    | (subst hx; rfl)

set_option maxHeartbeats 1000000 in
theorem expandNtChar_ne_nil (c : Char) : expandNtChar c ≠ [] := by
  simp only [expandNtChar]
  repeat' split
  all_goals simp

theorem cartesianConcat_ne_nil (ls : List (List String))
    (h : ∀ cs ∈ ls, cs ≠ []) : cartesianConcat ls ≠ [] := by
  induction ls with
  | nil => simp [cartesianConcat]
  | cons cs rest ih =>
    simp only [cartesianConcat, ne_eq, List.flatMap_eq_nil_iff, not_forall]
    obtain ⟨x, hx⟩ := List.exists_mem_of_ne_nil cs (h cs (List.mem_cons_self cs rest))
    refine ⟨x, hx, ?_⟩
    simp only [ne_eq, List.map_eq_nil_iff]
    exact ih fun cs2 h2 => h cs2 (List.mem_cons_of_mem cs h2)

theorem expand_nt_ne_nil (s : String) : expand_nt s ≠ [] :=
  cartesianConcat_ne_nil _ (by
    intro cs hcs
    obtain ⟨c, -, rfl⟩ := List.mem_map.mp hcs
    exact expandNtChar_ne_nil c)

theorem cartesianConcat_length (ls : List (List String))
    (h : ∀ cs ∈ ls, ∀ x ∈ cs, x.length = 1) :
    ∀ y ∈ cartesianConcat ls, y.length = ls.length := by
  induction ls with
  | nil => intro y hy; simp only [cartesianConcat, List.mem_singleton] at hy
           subst hy; rfl
  | cons cs rest ih =>
    intro y hy
    simp only [cartesianConcat, List.mem_flatMap, List.mem_map] at hy
    obtain ⟨x, hx, y2, hy2, rfl⟩ := hy
    have h1 : x.length = 1 := h cs (List.mem_cons_self cs rest) x hx
    have h2 : y2.length = rest.length :=
      ih (fun cs2 hc2 => h cs2 (List.mem_cons_of_mem cs hc2)) y2 hy2
    simp [String.length_append, h1, h2, List.length_cons]
    omega

theorem expand_nt_length (s : String) (i : String) (hi : i ∈ expand_nt s) :
    i.length = s.length := by
  have := cartesianConcat_length (s.data.map expandNtChar) (by
    intro cs hcs x hx
    obtain ⟨c, -, rfl⟩ := List.mem_map.mp hcs
    exact expandNtChar_length c x hx) i hi
  simpa using this

theorem commonPrefixLen_nil_right : ∀ l : List Char, commonPrefixLen l [] = 0
  | [] => rfl
  | _ :: _ => rfl

theorem fromCdnaPairs_refmismatch_head (cdna : CdnaPos) (ann ref alt : String)
    (rest : List (String × String)) (h : ref ≠ ann) :
    fromCdnaPairs cdna ann ((ref, alt) :: rest) = .error .RefMismatchError := by
  simp [fromCdnaPairs, h]

theorem fromCdnaPairs_error_of_mismatch (cdna : CdnaPos) (ann : String) :
    ∀ pairs : List (String × String), (∃ pr ∈ pairs, pr.1 ≠ ann) →
    ∃ er, fromCdnaPairs cdna ann pairs = .error er := by
  intro pairs
  induction pairs with
  | nil => rintro ⟨pr, hpr, -⟩; cases hpr
  | cons hd tl ih =>
    rintro ⟨pr, hpr, hne⟩
    obtain ⟨ref, alt⟩ := hd
    by_cases href : ref ≠ ann
    · exact ⟨.RefMismatchError, fromCdnaPairs_refmismatch_head cdna ann ref alt tl href⟩
    · push_neg at href
      subst href
      have htl : ∃ pr ∈ tl, pr.1 ≠ ref := by
        rcases List.mem_cons.mp hpr with h | h
        · exact absurd (by rw [h]) hne
        · exact ⟨pr, h, hne⟩
      obtain ⟨er, her⟩ := ih htl
      rcases hc : collapse_seq_change ref alt with ⟨nr, na, ts, te⟩
      cases hk : classify nr na with
      | none =>
        refine ⟨.NotImplementedError, ?_⟩
        simp [fromCdnaPairs, hc, hk]
      | some k =>
        refine ⟨er, ?_⟩
        simp [fromCdnaPairs, hc, hk, her, Except.map]

theorem fromRnaPairs_refmismatch_head (rna : RnaPos) (ann ref alt : String)
    (rest : List (String × String)) (h : ref ≠ ann) :
    fromRnaPairs rna ann ((ref, alt) :: rest) = .error .RefMismatchError := by
  simp [fromRnaPairs, h]

theorem fromRnaPairs_error_of_mismatch (rna : RnaPos) (ann : String) :
    ∀ pairs : List (String × String), (∃ pr ∈ pairs, pr.1 ≠ ann) →
    ∃ er, fromRnaPairs rna ann pairs = .error er := by
  intro pairs
  induction pairs with
  | nil => rintro ⟨pr, hpr, -⟩; cases hpr
  | cons hd tl ih =>
    rintro ⟨pr, hpr, hne⟩
    obtain ⟨ref, alt⟩ := hd
    by_cases href : ref ≠ ann
    · exact ⟨.RefMismatchError, fromRnaPairs_refmismatch_head rna ann ref alt tl href⟩
    · push_neg at href
      subst href
      have htl : ∃ pr ∈ tl, pr.1 ≠ ref := by
        rcases List.mem_cons.mp hpr with h | h
        · exact absurd (by rw [h]) hne
        · exact ⟨pr, h, hne⟩
      obtain ⟨er, her⟩ := ih htl
      rcases hc : collapse_seq_change ref alt with ⟨nr, na, ts, te⟩
      cases hk : classify nr na with
      | none =>
        refine ⟨.NotImplementedError, ?_⟩
        simp [fromRnaPairs, hc, hk]
      | some k =>
        refine ⟨er, ?_⟩
        simp [fromRnaPairs, hc, hk, her, Except.map]

theorem fromDnaPairs_error_kind (dna : DnaPos) :
    ∀ (pairs : List (String × String)) (er : Err),
    fromDnaPairs dna pairs = .error er → er = .NotImplementedError := by
  intro pairs
  induction pairs with
  | nil => intro er h; simp [fromDnaPairs] at h
  | cons hd tl ih =>
    intro er h
    obtain ⟨ref, alt⟩ := hd
    rcases hc : collapse_seq_change ref alt with ⟨nr, na, ts, te⟩
    simp only [fromDnaPairs, hc] at h
    cases hk : classify nr na with
    | none =>
      rw [hk] at h
      simp only [Except.error.injEq] at h
      exact h.symm
    | some k =>
      rw [hk] at h
      cases hrec : fromDnaPairs dna tl with
      | ok l => rw [hrec] at h; simp [Except.map] at h
      | error e2 =>
        rw [hrec] at h
        simp only [Except.map, Except.error.injEq] at h
        exact h ▸ ih e2 hrec


/-- C6 counterexample: with annotated reference `A`, constructing a cDNA
variant from `refseq="R"` (expanding to `A` and `G`, the latter a mismatch)
raises `NotImplementedError` — the earlier matching expansion pair `(A, A)`
collapses to a no-op that fails classification — not `RefMismatchError`. -/
theorem claim6_counterexample :
    expand_nt "R" = ["A", "G"] ∧ ("G" : String) ≠ "A" ∧
    store0.cds cdna0.transcript_id cdna0.start cdna0.end_ = "A" ∧
    fromCdna store0 cdna0 "R" "A" = .error .NotImplementedError ∧
    Err.NotImplementedError ≠ Err.RefMismatchError := by
  exact ⟨by decide, by decide, rfl, by decide, by decide⟩

/-- C6 amended: cDNA/RNA variant construction checks each expansion pair in
product order and fails with `RefMismatchError` at the first pair whose ref
differs from the annotated sequence (in particular whenever the first
expansion of `refseq` differs); whenever any expansion differs, some error is
raised; DNA variant construction performs no reference check and never
returns `RefMismatchError`. -/
theorem claim6_amended :
    (∀ (store : SeqStore) (cdna : CdnaPos) (refseq altseq r : String)
       (rs : List String),
      cdna.start_offset = 0 → cdna.end_offset = 0 →
      expand_nt refseq = r :: rs →
      r ≠ store.cds cdna.transcript_id cdna.start cdna.end_ →
      fromCdna store cdna refseq altseq = .error .RefMismatchError)
    ∧ (∀ (store : SeqStore) (cdna : CdnaPos) (refseq altseq : String),
      (∃ r ∈ expand_nt refseq,
        r ≠ store.cds cdna.transcript_id cdna.start cdna.end_) →
      ∃ er, fromCdna store cdna refseq altseq = .error er)
    ∧ (∀ (store : SeqStore) (rna : RnaPos) (refseq altseq r : String)
       (rs : List String),
      rna.start_offset = 0 → rna.end_offset = 0 →
      expand_nt refseq = r :: rs →
      r ≠ store.rna rna.transcript_id rna.start rna.end_ →
      fromRna store rna refseq altseq = .error .RefMismatchError)
    ∧ (∀ (store : SeqStore) (rna : RnaPos) (refseq altseq : String),
      (∃ r ∈ expand_nt refseq,
        r ≠ store.rna rna.transcript_id rna.start rna.end_) →
      ∃ er, fromRna store rna refseq altseq = .error er)
    ∧ (∀ (dna : DnaPos) (refseq altseq : String),
      fromDna dna refseq altseq ≠ .error .RefMismatchError) := by
  refine ⟨?_, ?_, ?_, ?_, ?_⟩
  · intro store cdna refseq altseq r rs hpo hpe hexp hne
    obtain ⟨a, as, ha⟩ := List.exists_cons_of_ne_nil (expand_nt_ne_nil altseq)
    have hseq : cdnaSequence store cdna =
        .ok (store.cds cdna.transcript_id cdna.start cdna.end_) := by
      simp [cdnaSequence, hpo, hpe]
    simp only [fromCdna, hseq, bind, Except.bind]
    rw [hexp, ha]
    simp only [listProd, List.flatMap_cons, List.map_cons, List.cons_append]
    exact fromCdnaPairs_refmismatch_head _ _ _ _ _ hne
  · rintro store cdna refseq altseq ⟨r, hr, hne⟩
    by_cases hoff : cdna.start_offset ≠ 0 ∨ cdna.end_offset ≠ 0
    · exact ⟨.OffsetError, by simp [fromCdna, cdnaSequence, hoff, bind, Except.bind]⟩
    · push_neg at hoff
      have hseq : cdnaSequence store cdna =
          .ok (store.cds cdna.transcript_id cdna.start cdna.end_) := by
        simp [cdnaSequence, hoff.1, hoff.2]
      have hpair : ∃ pr ∈ listProd (expand_nt refseq) (expand_nt altseq),
          pr.1 ≠ store.cds cdna.transcript_id cdna.start cdna.end_ := by
        obtain ⟨a, as, ha⟩ := List.exists_cons_of_ne_nil (expand_nt_ne_nil altseq)
        refine ⟨(r, a), mem_listProd.mpr ⟨hr, ?_⟩, hne⟩
        rw [ha]; exact List.mem_cons_self a as
      obtain ⟨er, her⟩ := fromCdnaPairs_error_of_mismatch cdna _ _ hpair
      exact ⟨er, by simp only [fromCdna, hseq, bind, Except.bind]; exact her⟩
  · intro store rna refseq altseq r rs hpo hpe hexp hne
    obtain ⟨a, as, ha⟩ := List.exists_cons_of_ne_nil (expand_nt_ne_nil altseq)
    have hseq : rnaSequence store rna =
        .ok (store.rna rna.transcript_id rna.start rna.end_) := by
      simp [rnaSequence, hpo, hpe]
    simp only [fromRna, hseq, bind, Except.bind]
    rw [hexp, ha]
    simp only [listProd, List.flatMap_cons, List.map_cons, List.cons_append]
    exact fromRnaPairs_refmismatch_head _ _ _ _ _ hne
  · rintro store rna refseq altseq ⟨r, hr, hne⟩
    by_cases hoff : rna.start_offset ≠ 0 ∨ rna.end_offset ≠ 0
    · exact ⟨.OffsetError, by simp [fromRna, rnaSequence, hoff, bind, Except.bind]⟩
    · push_neg at hoff
      have hseq : rnaSequence store rna =
          .ok (store.rna rna.transcript_id rna.start rna.end_) := by
        simp [rnaSequence, hoff.1, hoff.2]
      have hpair : ∃ pr ∈ listProd (expand_nt refseq) (expand_nt altseq),
          pr.1 ≠ store.rna rna.transcript_id rna.start rna.end_ := by
        obtain ⟨a, as, ha⟩ := List.exists_cons_of_ne_nil (expand_nt_ne_nil altseq)
        refine ⟨(r, a), mem_listProd.mpr ⟨hr, ?_⟩, hne⟩
        rw [ha]; exact List.mem_cons_self a as
      obtain ⟨er, her⟩ := fromRnaPairs_error_of_mismatch rna _ _ hpair
      exact ⟨er, by simp only [fromRna, hseq, bind, Except.bind]; exact her⟩
  · intro dna refseq altseq h
    have hk := fromDnaPairs_error_kind dna
      (listProd (expand_nt refseq) (expand_nt altseq)) .RefMismatchError h
    exact absurd hk (by decide)

/-- C6 amended witness at concrete inputs: a mismatching concrete refseq gives
`RefMismatchError` for cDNA, and DNA construction never gives it. -/
theorem claim6_amended_witness :
    fromCdna store0 cdna0 "C" "A" = .error .RefMismatchError ∧
    fromDna dna0 "C" "A" ≠ .error .RefMismatchError :=
  ⟨claim6_amended.1 store0 cdna0 "C" "A" "C" [] rfl rfl (by decide) (by decide),
   claim6_amended.2.2.2.2 dna0 "C" "A"⟩

/-- C8 counterexample: a frameshift cDNA deletion (`ref="A"`, `alt=""`, net
length change 1) constructs a protein Deletion variant with no error, and a
frameshift insertion (`ref=""`, `alt="AA"`) fails with `LengthError` from
codon splitting — neither the claimed `NotImplementedError` nor
`UnsupportedVariantError`. -/
theorem claim8_counterexample :
    is_frameshift "A" "" = true ∧
    fromCdnaProtein store0 tbl0 cdna0 protein0 "A" "" =
      .ok [{ kind := .deletion, contig_id := "1", start := 1 + 0,
             start_offset := 0, end_ := 1 - 0, end_offset := 0, strand := "+",
             gene_id := "G", gene_name := "GN", transcript_id := "T",
             transcript_name := "TN", protein_id := "P", refseq := "M",
             altseq := "" }] ∧
    is_frameshift "" "AA" = true ∧
    fromCdnaProtein store0 tbl0 cdna0 protein0 "" "AA" =
      .error .LengthError := by
  exact ⟨by decide, by decide, by decide, by decide⟩

/-- C8 amended: frameshift handling is not a uniform failure.  A frameshift
deletion (concrete non-empty refseq, empty altseq) builds a protein Deletion
variant without error; a frameshift insertion (empty refseq, altseq whose
length is not a multiple of 3) fails with `LengthError` from codon splitting;
only pairs reaching the frameshift branch of the protein classifier raise
`NotImplementedError`. -/
theorem claim8_amended :
    (∀ (store : SeqStore) (tbl : String → String) (cdna : CdnaPos)
       (protein : ProteinPos) (refseq r : String),
      protein.start_offset = 0 → protein.end_offset = 0 →
      expand_nt refseq = [r] → r ≠ "" →
      store.pep protein.protein_id protein.start protein.end_ ≠ "" →
      is_frameshift r "" = true →
      fromCdnaProtein store tbl cdna protein refseq "" =
        .ok [{ kind := .deletion, contig_id := protein.contig_id,
               start := protein.start + 0, start_offset := protein.start_offset,
               end_ := protein.end_ - 0, end_offset := protein.end_offset,
               strand := protein.strand, gene_id := protein.gene_id,
               gene_name := protein.gene_name,
               transcript_id := protein.transcript_id,
               transcript_name := protein.transcript_name,
               protein_id := protein.protein_id,
               refseq := store.pep protein.protein_id protein.start protein.end_,
               altseq := "" }])
    ∧ (∀ (store : SeqStore) (tbl : String → String) (cdna : CdnaPos)
       (protein : ProteinPos) (altseq : String),
      protein.start_offset = 0 → protein.end_offset = 0 →
      altseq.length % 3 ≠ 0 →
      fromCdnaProtein store tbl cdna protein "" altseq =
        .error .LengthError) := by
  constructor
  · intro store tbl cdna protein refseq r hpo hpe hexp hne hpep hfs
    have hseq : proteinSequence store protein =
        .ok (store.pep protein.protein_id protein.start protein.end_) := by
      simp [proteinSequence, hpo, hpe]
    have hmut : mutate_cds_to_protein store tbl cdna.transcript_id cdna.start
        cdna.end_ r "" = .ok [""] := by
      simp [mutate_cds_to_protein, hne]
    have hdat : ("" : String).data = [] := rfl
    have hcol : collapse_seq_change
        (store.pep protein.protein_id protein.start protein.end_) "" =
        (store.pep protein.protein_id protein.start protein.end_, "", 0, 0) := by
      simp [collapse_seq_change, hdat, commonPrefixLen_nil_right, commonPrefixLen]
    have hdel : is_deletion
        (store.pep protein.protein_id protein.start protein.end_) "" = true := by
      simp [is_deletion, hpep]
    have hemp : expand_nt "" = [""] := rfl
    simp only [fromCdnaProtein, hseq, bind, Except.bind, hexp, hemp]
    simp only [listProd, List.flatMap_cons, List.flatMap_nil, List.map_cons,
      List.map_nil, List.append_nil]
    simp only [fromCdnaProteinPairs, hmut, bind, Except.bind, List.mapM_cons,
      List.mapM_nil, hcol, proteinBuild, hdel, if_pos, Except.map, pure,
      Except.pure, List.append_nil]
  · intro store tbl cdna protein altseq hpo hpe hmod
    obtain ⟨a, as, ha⟩ := List.exists_cons_of_ne_nil (expand_nt_ne_nil altseq)
    obtain ⟨i0, is0, hi⟩ := List.exists_cons_of_ne_nil (expand_nt_ne_nil a)
    have h1 : a.length = altseq.length :=
      expand_nt_length altseq a (by rw [ha]; exact List.mem_cons_self a as)
    have h2 : i0.length = a.length :=
      expand_nt_length a i0 (by rw [hi]; exact List.mem_cons_self i0 is0)
    have hsplit : split_by_codon i0 = .error .LengthError := by
      simp only [split_by_codon, h2, h1]
      rw [if_pos hmod]
    have hmut : mutate_cds_to_protein store tbl cdna.transcript_id cdna.start
        cdna.end_ "" a = .error .LengthError := by
      simp only [mutate_cds_to_protein, reduceIte]
      rw [hi]
      simp [List.mapM.loop, hsplit, Except.map, bind, Except.bind]
    have hseq : proteinSequence store protein =
        .ok (store.pep protein.protein_id protein.start protein.end_) := by
      simp [proteinSequence, hpo, hpe]
    have hemp : expand_nt "" = [""] := rfl
    simp only [fromCdnaProtein, hseq, bind, Except.bind, hemp]
    rw [ha]
    simp only [listProd, List.flatMap_cons, List.flatMap_nil, List.map_cons,
      List.append_nil]
    simp only [fromCdnaProteinPairs, hmut, bind, Except.bind]

/-- C8 amended witness at concrete inputs. -/
theorem claim8_amended_witness :
    fromCdnaProtein store0 tbl0 cdna0 protein0 "A" "" =
      .ok [{ kind := .deletion, contig_id := protein0.contig_id,
             start := protein0.start + 0, start_offset := protein0.start_offset,
             end_ := protein0.end_ - 0, end_offset := protein0.end_offset,
             strand := protein0.strand, gene_id := protein0.gene_id,
             gene_name := protein0.gene_name,
             transcript_id := protein0.transcript_id,
             transcript_name := protein0.transcript_name,
             protein_id := protein0.protein_id,
             refseq := store0.pep protein0.protein_id protein0.start protein0.end_,
             altseq := "" }] ∧
    fromCdnaProtein store0 tbl0 cdna0 protein0 "" "AA" =
      .error .LengthError :=
  ⟨claim8_amended.1 store0 tbl0 cdna0 protein0 "A" "A" rfl rfl (by decide)
     (by decide) (by decide) (by decide),
   claim8_amended.2 store0 tbl0 cdna0 protein0 "AA" rfl rfl (by decide)⟩

end VariantMap
